import Mathlib

/-!
Verification development for the Memory-Cards-game repository.

Shallow embedding of the core game logic:
* `src/src/types/game.types.ts` — the data model (Card, Player, Move, GameState, AIMemory),
* `src/src/utils/cardUtils.ts` — deck generation, match evaluation, shuffling, reset,
* `src/unnamed/part_002` (the game-logic utility module) — initializeGame, canFlipCard,
  handleCardFlip, processCardPair, getNextPlayer, isGameFinished, toggleGamePause, getHint,
  resetFlippedCardsWithDelay,
* `src/src/utils/aiLogic.ts` — the AIPlayer decision engine (makeMove and its helpers),
* `src/src/hooks/useGameLogic.ts` — the mismatch-reset mapping used by the AI scheduler.

Conventions of the embedding:
* TypeScript string-union types become inductive types with decidable equality.
* `Math.random()` draws are modeled as an explicit oracle (`Rnd`) threaded through the
  definitions: comparisons such as `Math.random() < p` consume one oracle boolean, and
  `Math.floor(Math.random() * n)` consumes one oracle natural, reduced `% n`.  All theorems
  quantify over the oracle, so they hold for every sequence of random draws.
* `Date.now()` becomes an explicit `Nat` parameter (timestamps play no role in any claim).
* JavaScript `Map<number, Card>` (insertion-ordered) becomes an insertion-ordered
  association list with `set` updating in place and `delete` filtering.
* Array indices are `Nat`; the source guards on `index < 0` are subsumed by the type.
* JS truthiness of `card.id` (a string) is `card.id ≠ ""`.
* `setTimeout`/`await` delays are purely cosmetic pacing in the source and are not modeled.
-/

/-! ## Data model (game.types.ts) -/

inductive Suit where
  | hearts | diamonds | clubs | spades
deriving DecidableEq, Repr

inductive Rank where
  | A | r2 | r3 | r4 | r5 | r6 | r7 | r8 | r9 | r10 | J | Q | K
deriving DecidableEq, Repr

inductive CardColor where
  | red | black
deriving DecidableEq, Repr

inductive MatchType where
  | color | rank | suit
deriving DecidableEq, Repr

inductive BoardSize where
  | b4x4 | b4x6 | b6x6
deriving DecidableEq, Repr

inductive GameMode where
  | ai | localMultiplayer | aiVsAi
deriving DecidableEq, Repr

inductive AIDifficulty where
  | easy | medium | hard | expert
deriving DecidableEq, Repr

inductive GameStatus where
  | setup | playing | paused | finished
deriving DecidableEq, Repr

inductive PlayerType where
  | human | ai
deriving DecidableEq, Repr

structure Card where
  id : String
  suit : Suit
  rank : Rank
  color : CardColor
  position : Nat
  isFlipped : Bool
  isMatched : Bool
deriving DecidableEq, Repr

structure Player where
  id : String
  name : String
  «type» : PlayerType
  score : Nat
  «matches» : List (List Card)
  isCurrentPlayer : Bool
  aiDifficulty : Option AIDifficulty
deriving DecidableEq, Repr

structure Move where
  playerId : String
  cardIds : List String
  timestamp : Nat
  isMatch : Bool
deriving DecidableEq, Repr

structure GameSettings where
  soundEnabled : Bool
  animationSpeed : String
  theme : String
  showTimer : Bool
  hintsEnabled : Bool
  cardTheme : String
  turnTimeLimit : Option Nat
deriving DecidableEq, Repr

structure GameState where
  gameMode : GameMode
  matchType : MatchType
  boardSize : BoardSize
  currentPlayer : String
  players : List Player
  cards : List Card
  flippedCards : List Card
  matchedPairs : List (List Card)
  gameStatus : GameStatus
  turnStartTime : Option Nat
  gameStartTime : Option Nat
  moveHistory : List Move
  settings : GameSettings
deriving DecidableEq, Repr

/-- AI memory (game.types.ts `AIMemory`): `knownCards` is a JS `Map<number, Card>`,
modeled as an insertion-ordered association list with unique keys. -/
structure AIMemory where
  knownCards : List (Nat × Card)
  knownPairs : List (Nat × Nat)
  playerPatterns : List String
  lastPlayerMoves : List Move
  difficulty : AIDifficulty
deriving DecidableEq, Repr

/-! ## Randomness oracle -/

/-- Oracle for `Math.random()` draws.  `bools` answers threshold comparisons
(`Math.random() < p`); `nats` answers index draws (`Math.floor(Math.random() * n)`,
reduced mod `n` so the drawn value is always in range, as in the source). -/
structure Rnd where
  bools : List Bool
  nats : List Nat
deriving Repr

def Rnd.takeBool (r : Rnd) : Bool × Rnd :=
  (r.bools.headD false, { r with bools := r.bools.tail })

def Rnd.takeNat (r : Rnd) (n : Nat) : Nat × Rnd :=
  ((r.nats.headD 0) % n, { r with nats := r.nats.tail })

/-! ## JS Map operations on the association-list model -/

/-- JS `Map.set`: update in place when the key exists (preserving insertion order),
otherwise append. -/
def mapSet (m : List (Nat × Card)) (k : Nat) (v : Card) : List (Nat × Card) :=
  if m.any (fun e => e.1 == k) then
    m.map (fun e => if e.1 == k then (k, v) else e)
  else
    m ++ [(k, v)]

/-- JS `Map.delete`. -/
def mapDelete (m : List (Nat × Card)) (k : Nat) : List (Nat × Card) :=
  m.filter (fun e => e.1 ≠ k)

/-- JS `Map.get` (`undefined` as `none`). -/
def mapGet (m : List (Nat × Card)) (k : Nat) : Option Card :=
  (m.find? (fun e => e.1 == k)).map (·.2)

/-- JS `Map.has`. -/
def mapHas (m : List (Nat × Card)) (k : Nat) : Bool :=
  m.any (fun e => e.1 == k)

/-! ## cardUtils.ts -/

/-- The `getBoardDimensions` (cardUtils.ts): rows, cols, total cell count. -/
def getBoardDimensions (boardSize : BoardSize) : Nat × Nat × Nat :=
  match boardSize with
  | .b4x4 => (4, 4, 16)
  | .b4x6 => (4, 6, 24)
  | .b6x6 => (6, 6, 36)

/-- The `cardsMatch` (cardUtils.ts): pure match predicate on the relevant attribute. -/
def cardsMatch (card1 card2 : Card) (matchType : MatchType) : Bool :=
  match matchType with
  | .color => card1.color == card2.color
  | .rank => card1.rank == card2.rank
  | .suit => card1.suit == card2.suit

/-- The `getCardColor` (cardUtils.ts). -/
def getCardColor (suit : Suit) : CardColor :=
  if suit == .hearts || suit == .diamonds then .red else .black

/-- The suit list `[hearts, diamonds, clubs, spades]` used by the generator. -/
def suitList : List Suit := [.hearts, .diamonds, .clubs, .spades]

/-- The rank list `[A, 2, ..., K]` used by the generator. -/
def rankList : List Rank :=
  [.A, .r2, .r3, .r4, .r5, .r6, .r7, .r8, .r9, .r10, .J, .Q, .K]

/-- A card before `id`/`position`/flags are attached (the intermediate shape used by the generator). -/
structure ProtoCard where
  suit : Suit
  rank : Rank
  color : CardColor
deriving DecidableEq, Repr

/-- The `generateBaseCard` (cardUtils.ts): suit cycles through the 4 suits, rank advances
every 4 cards, color is derived from the suit. -/
def generateBaseCard (index : Nat) (_matchType : MatchType) : ProtoCard :=
  let suit := suitList.getD (index % suitList.length) .hearts
  let rank := rankList.getD ((index / suitList.length) % rankList.length) .A
  { suit := suit, rank := rank, color := getCardColor suit }

/-- Pick `list[Math.floor(Math.random() * list.length)] || fallback`: a uniform pick from
the list, or the fallback when the list is empty (JS indexing past an empty array yields
`undefined`, which `||` replaces by the fallback). -/
def randPick {α : Type} (l : List α) (fallback : α) (r : Rnd) : α × Rnd :=
  match l with
  | [] => (fallback, r)
  | _ =>
    let (j, r1) := r.takeNat l.length
    (l.getD j fallback, r1)

/-- The `generateMatchingCard` (cardUtils.ts): synthesize the partner of a base card per the
match type (same color with another suit of that color; same rank with another suit;
same suit with another rank). -/
def generateMatchingCard (baseCard : ProtoCard) (matchType : MatchType) (r : Rnd) :
    ProtoCard × Rnd :=
  match matchType with
  | .color =>
    let samColorSuits := suitList.filter (fun s => getCardColor s == baseCard.color && s != baseCard.suit)
    let (newSuit, r1) := randPick samColorSuits baseCard.suit r
    ({ baseCard with suit := newSuit }, r1)
  | .rank =>
    let differentSuits := suitList.filter (fun s => s != baseCard.suit)
    let (newSuit, r1) := randPick differentSuits (suitList.getD 0 .hearts) r
    ({ suit := newSuit, rank := baseCard.rank, color := getCardColor newSuit }, r1)
  | .suit =>
    let differentRanks := rankList.filter (fun rk => rk != baseCard.rank)
    let (newRank, r1) := randPick differentRanks (rankList.getD 0 .A) r
    ({ suit := baseCard.suit, rank := newRank, color := baseCard.color }, r1)

/-- The id string `card-${n}` attached to the n-th generated card. -/
def cardIdStr (n : Nat) : String := "card-" ++ toString n

/-- The pair-generation loop of `generateGameCards`: for `i` in `[i0, i0 + n)`, push the
base card (id `card-(2i)`, position `2i`) and its partner (id `card-(2i+1)`, position
`2i+1`).  Positions equal `cards.length` at push time, exactly as in the source. -/
def genPairsAux (matchType : MatchType) : Nat → Nat → Rnd → List Card × Rnd
  | 0, _, r => ([], r)
  | n + 1, i, r =>
    let base := generateBaseCard i matchType
    let (pair, r1) := generateMatchingCard base matchType r
    let (rest, r2) := genPairsAux matchType n (i + 1) r1
    ({ id := cardIdStr (2 * i), suit := base.suit, rank := base.rank, color := base.color,
       position := 2 * i, isFlipped := false, isMatched := false } ::
     { id := cardIdStr (2 * i + 1), suit := pair.suit, rank := pair.rank, color := pair.color,
       position := 2 * i + 1, isFlipped := false, isMatched := false } :: rest, r2)

/-- In-range list swap used by the Fisher–Yates loop; out-of-range indices leave the
list unchanged (the loop only uses in-range indices). -/
def swapL {α : Type} (l : List α) (i j : Nat) : List α :=
  match l.get? i, l.get? j with
  | some a, some b => (l.set i b).set j a
  | _, _ => l

/-- The Fisher–Yates loop body of `shuffleArray` (cardUtils.ts): the argument is the
current loop index (running from `length - 1` down to `1`); each step draws
`j = Math.floor(Math.random() * (i + 1))` and swaps positions `i` and `j`. -/
def fyAux {α : Type} : Nat → List α → Rnd → List α × Rnd
  | 0, l, r => (l, r)
  | i + 1, l, r =>
    let (j, r1) := r.takeNat (i + 2)
    fyAux i (swapL l (i + 1) j) r1

/-- The `shuffleArray` (cardUtils.ts): unbiased Fisher–Yates shuffle on a copy. -/
def shuffleArray {α : Type} (l : List α) (r : Rnd) : List α × Rnd :=
  fyAux (l.length - 1) l r

/-- The final `.map((card, index) => ({ ...card, position: index }))` of
`generateGameCards`: reassign positions to match final array order. -/
def reposition : Nat → List Card → List Card
  | _, [] => []
  | i, c :: t => { c with position := i } :: reposition (i + 1) t

/-- The `generateGameCards` (cardUtils.ts): build `total/2` base/partner pairs, shuffle,
then reassign positions. -/
def generateGameCards (boardSize : BoardSize) (matchType : MatchType) (r : Rnd) :
    List Card × Rnd :=
  let totalCards := (getBoardDimensions boardSize).2.2
  let numPairs := totalCards / 2
  let (cards, r1) := genPairsAux matchType numPairs 0 r
  let (shuffled, r2) := shuffleArray cards r1
  (reposition 0 shuffled, r2)

/-- The `resetFlippedCards` (cardUtils.ts): turn flipped-but-unmatched cards face down;
matched cards are never touched. -/
def resetFlippedCards (cards : List Card) : List Card :=
  cards.map (fun card =>
    if card.isFlipped && !card.isMatched then { card with isFlipped := false } else card)

/-! ## Game state machine (src/unnamed/part_002) -/

/-- The difficulty names as interpolated into the AI player names
(`AI (${aiDifficulty})`); a missing difficulty interpolates as `undefined`. -/
def difficultyName : Option AIDifficulty → String
  | some .easy => "easy"
  | some .medium => "medium"
  | some .hard => "hard"
  | some .expert => "expert"
  | none => "undefined"

/-- The `initializeGame` (part_002): build players per mode, generate the deck, start playing.
`now` stands for `Date.now()`. -/
def initializeGame (gameMode : GameMode) (matchType : MatchType) (boardSize : BoardSize)
    (player1Name : String) (player2Name : Option String) (aiDifficulty : Option AIDifficulty)
    (ai2Difficulty : Option AIDifficulty) (r : Rnd) (now : Nat) : GameState :=
  let cards := (generateGameCards boardSize matchType r).1
  let player1 : Player :=
    { id := if gameMode == .aiVsAi then "ai1" else "player1"
      name := player1Name
      «type» := if gameMode == .aiVsAi then .ai else .human
      score := 0
      «matches» := []
      isCurrentPlayer := true
      aiDifficulty := if gameMode == .aiVsAi then aiDifficulty else none }
  let players : List Player :=
    match gameMode with
    | .ai => [player1,
      { id := "ai", name := "AI (" ++ difficultyName aiDifficulty ++ ")", «type» := .ai,
        score := 0, «matches» := [], isCurrentPlayer := false, aiDifficulty := aiDifficulty }]
    | .aiVsAi => [player1,
      { id := "ai2", name := "AI 2 (" ++ difficultyName ai2Difficulty ++ ")", «type» := .ai,
        score := 0, «matches» := [], isCurrentPlayer := false, aiDifficulty := ai2Difficulty }]
    | .localMultiplayer => [player1,
      { id := "player2", name := player2Name.getD "Player 2", «type» := .human, score := 0,
        «matches» := [], isCurrentPlayer := false, aiDifficulty := none }]
  { gameMode := gameMode
    matchType := matchType
    boardSize := boardSize
    currentPlayer := if gameMode == .aiVsAi then "ai1" else "player1"
    players := players
    cards := cards
    flippedCards := []
    matchedPairs := []
    gameStatus := .playing
    turnStartTime := some now
    gameStartTime := some now
    moveHistory := []
    settings :=
      { soundEnabled := true, animationSpeed := "normal", theme := "dark", showTimer := true,
        hintsEnabled := gameMode == .localMultiplayer, cardTheme := "classic",
        turnTimeLimit := none } }

/-- The `canFlipCard` (part_002): bounds check, card-exists-with-id check (JS truthiness of
`card.id`), then `gameStatus == playing && !isFlipped && !isMatched && flippedCards.length < 2`.
The source guard `cardIndex < 0` is subsumed by `Nat`. -/
def canFlipCard (gameState : GameState) (cardIndex : Nat) : Bool :=
  match gameState.cards.get? cardIndex with
  | none => false
  | some card =>
    if card.id == "" then false
    else
      gameState.gameStatus == .playing && !card.isFlipped && !card.isMatched &&
        gameState.flippedCards.length < 2

/-- The `getNextPlayer` (part_002): `(findIndex(currentPlayer) + 1) % players.length`; a missing
current player gives JS index `-1`, hence next index `0`.  On an empty player list the source
would fault (`players[NaN].id`); that case is unreachable and mapped to `currentPlayer`. -/
def getNextPlayer (gameState : GameState) : String :=
  let nextIndex : Nat :=
    match gameState.players.findIdx? (fun p => p.id == gameState.currentPlayer) with
    | some k => (k + 1) % gameState.players.length
    | none => 0
  match gameState.players.get? nextIndex with
  | some p => p.id
  | none => gameState.currentPlayer

/-- The `isGameFinished` (part_002): every card is matched. -/
def isGameFinished (gameState : GameState) : Bool :=
  gameState.cards.all (fun card => card.isMatched)

/-- The `processCardPair` (part_002): resolve the two flipped cards.  On a match: mark both
cards (matched by id) as `isMatched := true, isFlipped := true`, bump the score and
matches of the current player, push the pair onto `matchedPairs`, clear `flippedCards`, keep the turn.
On a mismatch: keep both cards face up and `flippedCards` populated, and advance the turn
(round robin) — except in ai-vs-ai mode, where the switch is deferred to the reset handler.
Finally set `gameStatus := finished` when every card is matched.  `now` is `Date.now()`. -/
def processCardPair (now : Nat) (gameState : GameState) : GameState :=
  match gameState.flippedCards with
  | [card1, card2] =>
    if card1.id == "" || card2.id == "" then gameState
    else
      let isMatch := cardsMatch card1 card2 gameState.matchType
      let move : Move :=
        { playerId := gameState.currentPlayer, cardIds := [card1.id, card2.id],
          timestamp := now, isMatch := isMatch }
      let newCards :=
        if isMatch then
          gameState.cards.map (fun card =>
            if card.id == "" then card
            else if card.id == card1.id || card.id == card2.id then
              { card with isMatched := true, isFlipped := true }
            else card)
        else gameState.cards
      let newPlayers :=
        if isMatch then
          match gameState.players.findIdx? (fun p => p.id == gameState.currentPlayer) with
          | some playerIndex =>
            match gameState.players.get? playerIndex with
            | some p =>
              gameState.players.set playerIndex
                { p with score := p.score + 1, «matches» := p.«matches» ++ [[card1, card2]] }
            | none => gameState.players
          | none => gameState.players
        else gameState.players
      let newMatchedPairs :=
        if isMatch then gameState.matchedPairs ++ [[card1, card2]] else gameState.matchedPairs
      let newGameState : GameState :=
        { gameState with
          cards := newCards
          flippedCards := if isMatch then [] else gameState.flippedCards
          players := newPlayers
          matchedPairs := newMatchedPairs
          moveHistory := gameState.moveHistory ++ [move]
          currentPlayer :=
            if isMatch then gameState.currentPlayer
            else if gameState.gameMode == .aiVsAi then gameState.currentPlayer
            else getNextPlayer gameState
          turnStartTime := some now }
      if isGameFinished newGameState then { newGameState with gameStatus := .finished }
      else newGameState
  | _ => gameState

/-- The `handleCardFlip` (part_002): no-op unless `canFlipCard`; otherwise flip the card,
append it to `flippedCards`, and resolve the pair when this was the second card. -/
def handleCardFlip (now : Nat) (gameState : GameState) (cardIndex : Nat) : GameState :=
  if !canFlipCard gameState cardIndex then gameState
  else
    match gameState.cards.get? cardIndex with
    | none => gameState
    | some card =>
      -- the additional safety check of the source on `newCards[cardIndex].id`
      if card.id == "" then gameState
      else
        let flipped := { card with isFlipped := true }
        let newCards := gameState.cards.set cardIndex flipped
        let newFlippedCards := gameState.flippedCards ++ [flipped]
        let newGameState :=
          { gameState with cards := newCards, flippedCards := newFlippedCards }
        if newFlippedCards.length == 2 then processCardPair now newGameState
        else newGameState

/-- The state-producing core of `resetFlippedCardsWithDelay` (part_002): unflip every
flipped-but-unmatched card and clear `flippedCards` (the surrounding `Promise`/`setTimeout`
delay is pacing only and is not modeled). -/
def resetFlippedCardsWithDelay (gameState : GameState) : GameState :=
  { gameState with cards := resetFlippedCards gameState.cards, flippedCards := [] }

/-- The `toggleGamePause` (part_002): `paused ↦ playing`, anything else (including `finished`)
`↦ paused`.  `now` is `Date.now()`. -/
def toggleGamePause (now : Nat) (gameState : GameState) : GameState :=
  let newStatus : GameStatus := if gameState.gameStatus == .paused then .playing else .paused
  { gameState with
    gameStatus := newStatus
    turnStartTime := if newStatus == .playing then some now else gameState.turnStartTime }

/-- The inner pair search of `getHint`: for the first card, scan the remainder in order for
the first match — the same visit order as the nested `i < j` loops of the source. -/
def findHintPair (matchType : MatchType) : List Card → Option (Nat × Nat)
  | [] => none
  | c :: rest =>
    match rest.find? (fun d => cardsMatch c d matchType) with
    | some d => some (c.position, d.position)
    | none => findHintPair matchType rest

/-- The `getHint` (part_002): `null` unless `settings.hintsEnabled`; otherwise the board
positions of the first pair of available (unmatched, unflipped) cards that match. -/
def getHint (gameState : GameState) : Option (Nat × Nat) :=
  if !gameState.settings.hintsEnabled then none
  else
    let unmatched := gameState.cards.filter (fun card => !card.isMatched && !card.isFlipped)
    findHintPair gameState.matchType unmatched

/-- The AI mismatch-reset mapping of `useGameLogic.ts` (the mismatch handler of `scheduleAIMove`,
timeout handler, lines 504–546): unflip flipped-but-unmatched cards (matched cards are
never touched), clear `flippedCards`, and switch the turn — ai1 ↔ ai2 in ai-vs-ai mode,
otherwise to the first human player (`find(...)?.id OR player1`). -/
def hookMismatchReset (gameState : GameState) : GameState :=
  let resetCards := gameState.cards.map (fun card =>
    if card.id == "" then card
    else if card.isMatched then card
    else if card.isFlipped && !card.isMatched then { card with isFlipped := false }
    else card)
  let nextPlayer : String :=
    if gameState.gameMode == .aiVsAi then
      if gameState.currentPlayer == "ai1" then "ai2" else "ai1"
    else
      let humanId := ((gameState.players.find? (fun p => p.«type» == .human)).map (·.id)).getD ""
      if humanId == "" then "player1" else humanId
  { gameState with cards := resetCards, flippedCards := [], currentPlayer := nextPlayer }

/-! ## AI decision engine (src/src/utils/aiLogic.ts)

`AIPlayer` is a class holding private mutable `AIMemory`; the embedding passes the memory
explicitly and returns the updated memory.  `GAME_CONSTANTS` thresholds
(`AI_OPTIMAL_PLAY_RATES`, memory-reliability rates, …) parameterize probability
comparisons, which the oracle answers; `AI_MEMORY_LIMITS` are the capacity bounds. -/

/-- The `GAME_CONSTANTS.AI_MEMORY_LIMITS` (game.types.ts). -/
def aiMemoryLimit : AIDifficulty → Nat
  | .easy => 3
  | .medium => 7
  | .hard => 12
  | .expert => 20

/-- Is the card at index `k` of `cards` present and matched (`card?.isMatched === true`)? -/
def matchedAt (cards : List Card) (k : Nat) : Bool :=
  match cards.get? k with
  | some c => c.isMatched
  | none => false

/-- The `purgeMatchedCardsFromMemory` (aiLogic.ts): delete every matched board index from
`knownCards` and drop every known pair that involves a matched index. -/
def purgeMatchedCardsFromMemory (memory : AIMemory) (cards : List Card) : AIMemory :=
  { memory with
    knownCards := memory.knownCards.filter (fun e => !matchedAt cards e.1)
    knownPairs := memory.knownPairs.filter (fun p =>
      !matchedAt cards p.1 && !matchedAt cards p.2) }

/-- The collecting loop of `findStrictlyAvailableCards`, generalized over the index of the
first remaining card (`i0`). -/
def fsaAux : List Card → Nat → List Nat
  | [], _ => []
  | c :: rest, i0 =>
    if c.id != "" && !c.isFlipped && !c.isMatched then i0 :: fsaAux rest (i0 + 1)
    else fsaAux rest (i0 + 1)

/-- The `findStrictlyAvailableCards` (aiLogic.ts): indices of cards with a (nonempty) id that
are neither flipped nor matched, in increasing order.  The `typeof` checks of the source are
subsumed by the types. -/
def findStrictlyAvailableCards (cards : List Card) : List Nat :=
  fsaAux cards 0

/-- The `findSafeKnownMatch` (aiLogic.ts): the first remembered pair whose two indices are both
currently available and whose cards match. -/
def findSafeKnownMatch (memory : AIMemory) (cards : List Card) (matchType : MatchType)
    (availableIndices : List Nat) : Option (Nat × Nat) :=
  memory.knownPairs.find? (fun p =>
    availableIndices.contains p.1 && availableIndices.contains p.2 &&
      (match cards.get? p.1, cards.get? p.2 with
       | some card1, some card2 => cardsMatch card1 card2 matchType
       | _, _ => false))

/-- Fisher–Yates shuffle + take the first two entries: the common pattern of the
`findSafeStrategicMove` / `makeSafeRandomMove` branches.  Only called on lists with at
least two entries; out-of-range defaults mirror that JS would yield `undefined` there. -/
def shuffleTakeTwo (l : List Nat) (r : Rnd) : (Nat × Nat) × Rnd :=
  let (shuffled, r1) := shuffleArray l r
  ((shuffled.getD 0 0, shuffled.getD 1 0), r1)

/-- The `findSafeStrategicMove` (aiLogic.ts): expert prefers two shuffled not-yet-remembered
positions; hard prefers two shuffled positions outside known pairs; otherwise two shuffled
available positions. -/
def findSafeStrategicMove (memory : AIMemory) (availableIndices : List Nat) (r : Rnd) :
    Option (Nat × Nat) × Rnd :=
  if availableIndices.length < 2 then (none, r)
  else
    if memory.difficulty == .expert &&
        ((availableIndices.filter (fun idx => !mapHas memory.knownCards idx)).length ≥ 2) then
      let unknownCards := availableIndices.filter (fun idx => !mapHas memory.knownCards idx)
      let (mv, r1) := shuffleTakeTwo unknownCards r
      (some mv, r1)
    else if memory.difficulty == .hard &&
        ((availableIndices.filter (fun idx =>
            !(memory.knownPairs.any (fun p => p.1 == idx || p.2 == idx)))).length ≥ 2) then
      let nonPairCards := availableIndices.filter (fun idx =>
        !(memory.knownPairs.any (fun p => p.1 == idx || p.2 == idx)))
      let (mv, r1) := shuffleTakeTwo nonPairCards r
      (some mv, r1)
    else
      let (mv, r1) := shuffleTakeTwo availableIndices r
      (some mv, r1)

/-- The attribute comparison the AI strategies inline (`switch (matchType) {...}`);
semantically identical to `cardsMatch`. -/
def attrMatch (c1 c2 : Card) (matchType : MatchType) : Bool :=
  match matchType with
  | .color => c1.color == c2.color
  | .rank => c1.rank == c2.rank
  | .suit => c1.suit == c2.suit

/-- The inner scan of `findSafeInferredMatch`: the first available index other than
`knownIndex` whose card attribute matches the remembered card. -/
def inferScan (cards : List Card) (matchType : MatchType) (knownIndex : Nat)
    (knownCard : Card) (availableIndices : List Nat) : Option Nat :=
  availableIndices.find? (fun otherIndex =>
    knownIndex != otherIndex &&
      (match cards.get? otherIndex with
       | some otherCard => attrMatch knownCard otherCard matchType
       | none => false))

/-- The expert branch of `findSafeInferredMatch`: first a remembered card against any
available card, then remembered cards pairwise (ordered by board index `k1 < k2`). -/
def expertInferred (memory : AIMemory) (cards : List Card) (matchType : MatchType)
    (availableIndices : List Nat) : Option (Nat × Nat) :=
  let pass1 := memory.knownCards.findSome? (fun e =>
    if availableIndices.contains e.1 && e.2.id != "" then
      (inferScan cards matchType e.1 e.2 availableIndices).map (fun j => (e.1, j))
    else none)
  match pass1 with
  | some mv => some mv
  | none =>
    memory.knownCards.findSome? (fun e1 =>
      if availableIndices.contains e1.1 && e1.2.id != "" then
        (memory.knownCards.find? (fun e2 =>
          e1.1 < e2.1 && availableIndices.contains e2.1 && e2.2.id != "" &&
            attrMatch e1.2 e2.2 matchType)).map (fun e2 => (e1.1, e2.1))
      else none)

/-- The medium/hard loop of `findSafeInferredMatch`: per remembered card, an oracle boolean
decides whether the AI "remembers accurately" (`Math.random() > memoryAccuracy` skips);
on an accurate recall, scan the available indices for an attribute match. -/
def mediumHardInferred (cards : List Card) (matchType : MatchType)
    (availableIndices : List Nat) : List (Nat × Card) → Rnd → Option (Nat × Nat) × Rnd
  | [], r => (none, r)
  | e :: rest, r =>
    if availableIndices.contains e.1 && e.2.id != "" then
      let (forget, r1) := r.takeBool
      if forget then mediumHardInferred cards matchType availableIndices rest r1
      else
        match inferScan cards matchType e.1 e.2 availableIndices with
        | some j => (some (e.1, j), r1)
        | none => mediumHardInferred cards matchType availableIndices rest r1
    else mediumHardInferred cards matchType availableIndices rest r

/-- The `findSafeInferredMatch` (aiLogic.ts). -/
def findSafeInferredMatch (memory : AIMemory) (cards : List Card) (matchType : MatchType)
    (availableIndices : List Nat) (r : Rnd) : Option (Nat × Nat) × Rnd :=
  if memory.difficulty == .expert then
    (expertInferred memory cards matchType availableIndices, r)
  else
    mediumHardInferred cards matchType availableIndices memory.knownCards r

/-- The `makeSafeRandomMove` (aiLogic.ts): two entries of the shuffled available indices. -/
def makeSafeRandomMove (availableIndices : List Nat) (r : Rnd) : (Nat × Nat) × Rnd :=
  shuffleTakeTwo availableIndices r

/-- The `calculateSafeMove` (aiLogic.ts): behind an optimal-play-rate roll, try known match,
then (hard/expert) strategic move, then (non-easy) inferred match; otherwise (and as the
default) a safe random move. -/
def calculateSafeMove (memory : AIMemory) (cards : List Card) (matchType : MatchType)
    (availableIndices : List Nat) (r : Rnd) : (Nat × Nat) × Rnd :=
  let (optimal, r1) := r.takeBool
  if optimal then
    match findSafeKnownMatch memory cards matchType availableIndices with
    | some mv => (mv, r1)
    | none =>
      let (strategic, r2) :=
        if memory.difficulty == .hard || memory.difficulty == .expert then
          findSafeStrategicMove memory availableIndices r1
        else (none, r1)
      match strategic with
      | some mv => (mv, r2)
      | none =>
        let (inferred, r3) :=
          if memory.difficulty != .easy then
            findSafeInferredMatch memory cards matchType availableIndices r2
          else (none, r2)
        match inferred with
        | some mv => (mv, r3)
        | none => makeSafeRandomMove availableIndices r3
  else makeSafeRandomMove availableIndices r1

/-- The `isValidMoveStrict` (aiLogic.ts): both indices in bounds and distinct, both cards with
nonempty ids, neither flipped nor matched. -/
def isValidMoveStrict (cards : List Card) (move : Nat × Nat) : Bool :=
  move.1 < cards.length && move.2 < cards.length && move.1 != move.2 &&
    (match cards.get? move.1, cards.get? move.2 with
     | some card1, some card2 =>
       card1.id != "" && card2.id != "" &&
         !card1.isFlipped && !card1.isMatched && !card2.isFlipped && !card2.isMatched
     | _, _ => false)

/-- The `forceEmergencyMove` (aiLogic.ts): the first two indices (in increasing order) whose
cards have a nonempty id — the nested source loops return exactly the first such pair —
else `[0, Math.min(1, cards.length - 1)]` (at `cards.length = 0` the source produces the
JS sentinel `-1`; over `Nat` this maps to `0`, equally out of bounds). -/
def forceEmergencyMove (cards : List Card) : Nat × Nat :=
  match (List.range cards.length).filter (fun i =>
      match cards.get? i with
      | some c => c.id != ""
      | none => false) with
  | i :: j :: _ => (i, j)
  | _ => (0, min 1 (cards.length - 1))

/-- The `validateAndCorrectMove` (aiLogic.ts): if either selected card is matched, or the move
fails `isValidMoveStrict`, fall back to the first two available indices (or the emergency
move when fewer than two are available). -/
def validateAndCorrectMove (cards : List Card) (move : Nat × Nat)
    (availableIndices : List Nat) : Nat × Nat :=
  if matchedAt cards move.1 || matchedAt cards move.2 then
    match availableIndices with
    | a :: b :: _ => (a, b)
    | _ => forceEmergencyMove cards
  else if isValidMoveStrict cards move then move
  else
    match availableIndices with
    | a :: b :: _ => (a, b)
    | _ => forceEmergencyMove cards

/-- One step of the per-card loop of `updateMemory` (`cards.forEach((card, index) => ...)`):
matched cards are deleted from memory; flipped cards are remembered when the
memory-reliability roll succeeds; face-down cards that are already remembered keep their
remembered identity with the current flags. -/
def updateMemoryCardStep (knownCards : List (Nat × Card)) (index : Nat) (card : Card)
    (r : Rnd) : List (Nat × Card) × Rnd :=
  if card.id == "" then (knownCards, r)
  else if card.isMatched then (mapDelete knownCards index, r)
  else if card.isFlipped then
    let (remember, r1) := r.takeBool
    if remember then (mapSet knownCards index card, r1) else (knownCards, r1)
  else
    match mapGet knownCards index with
    | some rememberedCard =>
      (mapSet knownCards index
        { card with color := rememberedCard.color, rank := rememberedCard.rank,
                    suit := rememberedCard.suit }, r)
    | none => (knownCards, r)

/-- The per-card loop of `updateMemory`, from board index `i0` on. -/
def updateMemoryCards (knownCards : List (Nat × Card)) (r : Rnd) :
    List Card → Nat → List (Nat × Card) × Rnd
  | [], _ => (knownCards, r)
  | card :: rest, i0 =>
    let (kc1, r1) := updateMemoryCardStep knownCards i0 card r
    updateMemoryCards kc1 r1 rest (i0 + 1)

/-- The random fill of the hard/expert eviction policy: while the kept list is below the
limit and entries remain, draw a random remaining entry, keep it, and remove it
(`splice`).  Structured by fuel = number of remaining entries. -/
def fillRandomKeep (limit : Nat) :
    Nat → List (Nat × Card) → List (Nat × Card) → Rnd → List (Nat × Card) × Rnd
  | 0, keep, _, r => (keep, r)
  | fuel + 1, keep, remaining, r =>
    if keep.length < limit && remaining.length > 0 then
      let (j, r1) := r.takeNat remaining.length
      match remaining.get? j with
      | some e => fillRandomKeep limit fuel (keep ++ [e]) (remaining.eraseIdx j) r1
      | none => (keep, r1)
    else (keep, r)

/-- The capacity-limit eviction of `updateMemory`: easy/medium keep the newest
`memoryLimit` entries (`slice(-memoryLimit)`); hard/expert first keep entries that are part
of a known pair, then fill the rest with uniformly drawn remaining entries. -/
def evictToLimit (difficulty : AIDifficulty) (memoryLimit : Nat)
    (knownCards : List (Nat × Card)) (knownPairs : List (Nat × Nat)) (r : Rnd) :
    List (Nat × Card) × Rnd :=
  if knownCards.length ≤ memoryLimit then (knownCards, r)
  else if difficulty == .easy || difficulty == .medium then
    (knownCards.drop (knownCards.length - memoryLimit), r)
  else
    let isPaired := fun (k : Nat) => knownPairs.any (fun p => p.1 == k || p.2 == k)
    let keep1 := (knownCards.filter (fun e => isPaired e.1)).take memoryLimit
    let remaining := knownCards.filter (fun e => !isPaired e.1)
    fillRandomKeep memoryLimit remaining.length keep1 remaining r

/-- The inner loop of `updateKnownPairs`: pair the head entry with each later entry whose
card matches under any of the three criteria, appending pairs not already present. -/
def ukpInner (e1 : Nat × Card) (pairs : List (Nat × Nat)) :
    List (Nat × Card) → List (Nat × Nat)
  | [] => pairs
  | e2 :: rest =>
    let pairs1 :=
      if e1.2.id != "" && e2.2.id != "" &&
          (cardsMatch e1.2 e2.2 .color || cardsMatch e1.2 e2.2 .rank ||
            cardsMatch e1.2 e2.2 .suit) &&
          !(pairs.any (fun p =>
            (p.1 == e1.1 && p.2 == e2.1) || (p.1 == e2.1 && p.2 == e1.1))) then
        pairs ++ [(e1.1, e2.1)]
      else pairs
    ukpInner e1 pairs1 rest

/-- The `updateKnownPairs` (aiLogic.ts): cross-compare all remembered cards, recording every
matching pair (under any criterion) not already known. -/
def updateKnownPairs (pairs : List (Nat × Nat)) : List (Nat × Card) → List (Nat × Nat)
  | [] => pairs
  | e1 :: rest => updateKnownPairs (ukpInner e1 pairs rest) rest

/-- The `updateMemory` (aiLogic.ts): purge matched indices, run the per-card loop, drop pairs
with matched cards, enforce the capacity limit, recompute known pairs, and keep the last
five opponent moves.  (The `recentMoves.forEach` learning loop only logs and is omitted;
`Math.random() < getMemoryReliability()` rolls are oracle booleans.) -/
def updateMemory (memory : AIMemory) (cards : List Card) (recentMoves : List Move)
    (r : Rnd) : AIMemory × Rnd :=
  let kc0 := memory.knownCards.filter (fun e => !matchedAt cards e.1)
  let (kc1, r1) := updateMemoryCards kc0 r cards 0
  let pairs1 := memory.knownPairs.filter (fun p =>
    match cards.get? p.1, cards.get? p.2 with
    | some card1, some card2 => !card1.isMatched && !card2.isMatched
    | _, _ => false)
  let (kc2, r2) := evictToLimit memory.difficulty (aiMemoryLimit memory.difficulty) kc1 pairs1 r1
  let pairs2 := updateKnownPairs pairs1 kc2
  ({ memory with
      knownCards := kc2
      knownPairs := pairs2
      lastPlayerMoves := recentMoves.drop (recentMoves.length - 5) }, r2)

/-- The `AIPlayer.makeMove` (aiLogic.ts), the "bulletproof" decision entry point: validate the
input, purge matched cards from memory, collect the strictly available indices, bail out to
`forceEmergencyMove` when fewer than two are available, otherwise update memory, compute a
candidate move, and pass it through `validateAndCorrectMove`.  The reaction delay
(`setTimeout`) is pacing only.  Returns the move and the updated private memory. -/
def makeMove (memory : AIMemory) (cards : List Card) (matchType : MatchType)
    (playerMoves : List Move) (r : Rnd) : (Nat × Nat) × AIMemory × Rnd :=
  if cards.length == 0 then ((0, 1), memory, r)
  else
    let memory1 := purgeMatchedCardsFromMemory memory cards
    let availableIndices := findStrictlyAvailableCards cards
    if availableIndices.length < 2 then (forceEmergencyMove cards, memory1, r)
    else
      let (memory2, r1) := updateMemory memory1 cards playerMoves r
      let (selected, r2) := calculateSafeMove memory2 cards matchType availableIndices r1
      (validateAndCorrectMove cards selected availableIndices, memory2, r2)

/-- The availability predicate collected by `findStrictlyAvailableCards`. -/
def strictlyAvailable (c : Card) : Bool := c.id != "" && !c.isFlipped && !c.isMatched

/-- The sum of the scores of all players. -/
def sumScores (s : GameState) : Nat := (s.players.map (·.score)).sum

/-- The player-id lists produced by `initializeGame` per game mode. -/
def modeIds : GameMode → List String
  | .ai => ["player1", "ai"]
  | .aiVsAi => ["ai1", "ai2"]
  | .localMultiplayer => ["player1", "player2"]

/-- Invariant maintained by every transition from an initialized game: duplicate-free
nonempty card ids, score/pair/matched-count balance, well-formed flipped-card buffer,
and a current player drawn from the fixed player ids of the mode. -/
structure GameInv (s : GameState) : Prop where
  nodup : (s.cards.map (·.id)).Nodup
  ids_ne : ∀ c ∈ s.cards, c.id ≠ ""
  score_eq : sumScores s = s.matchedPairs.length
  matched_eq : 2 * s.matchedPairs.length = s.cards.countP (·.isMatched)
  flip_inv : ∀ fc ∈ s.flippedCards, ∃ k c, s.cards.get? k = some c ∧ c.id = fc.id ∧
    c.isFlipped = true ∧ c.isMatched = false
  flip_nodup : (s.flippedCards.map (·.id)).Nodup
  mode_players : s.players.map (·.id) = modeIds s.gameMode
  cur_mem : s.currentPlayer ∈ s.players.map (·.id)

/-- The card-marking function of the match branch of `processCardPair`. -/
def markFun (id1 id2 : String) (card : Card) : Card :=
  if card.id == "" then card
  else if card.id == id1 || card.id == id2 then
    { card with isMatched := true, isFlipped := true }
  else card

/-- States reachable from `initializeGame` through the embedded transitions: card flips,
the part_002 mismatch reset, the useGameLogic mismatch-reset mapping, and the pause
toggle. -/
inductive Reaches : GameState → Prop
  | init (gameMode : GameMode) (matchType : MatchType) (boardSize : BoardSize)
      (p1 : String) (p2 : Option String) (d1 d2 : Option AIDifficulty) (r : Rnd)
      (now : Nat) : Reaches (initializeGame gameMode matchType boardSize p1 p2 d1 d2 r now)
  | flip {s : GameState} (h : Reaches s) (t i : Nat) : Reaches (handleCardFlip t s i)
  | reset {s : GameState} (h : Reaches s) : Reaches (resetFlippedCardsWithDelay s)
  | hookReset {s : GameState} (h : Reaches s) : Reaches (hookMismatchReset s)
  | pause {s : GameState} (h : Reaches s) (t : Nat) : Reaches (toggleGamePause t s)

/-- The `cardsMatch` restricted to the intermediate card shape of the generator. -/
def cardsMatchProto (c1 c2 : ProtoCard) (matchType : MatchType) : Bool :=
  match matchType with
  | .color => c1.color == c2.color
  | .rank => c1.rank == c2.rank
  | .suit => c1.suit == c2.suit

/-! ## Concrete sample data for witnesses and counterexamples -/

def emptyMemory : AIMemory := ⟨[], [], [], [], .easy⟩

def emptyRnd : Rnd := ⟨[], []⟩

def sampleSettings (hints : Bool) : GameSettings :=
  { soundEnabled := true, animationSpeed := "normal", theme := "dark", showTimer := true,
    hintsEnabled := hints, cardTheme := "classic", turnTimeLimit := none }

def sampleHuman : Player :=
  { id := "player1", name := "P1", «type» := .human, score := 0, «matches» := [],
    isCurrentPlayer := true, aiDifficulty := none }

def sampleAI : Player :=
  { id := "ai", name := "AI", «type» := .ai, score := 0, «matches» := [],
    isCurrentPlayer := false, aiDifficulty := some .easy }

/-- A face-up red card (position 0). -/
def cardFlippedRed : Card :=
  { id := "card-0", suit := .hearts, rank := .A, color := .red, position := 0,
    isFlipped := true, isMatched := false }

/-- An available red card (position 1). -/
def cardAvailRed : Card :=
  { id := "card-1", suit := .diamonds, rank := .r2, color := .red, position := 1,
    isFlipped := false, isMatched := false }

/-- An available black card (position 1). -/
def cardAvailBlack : Card :=
  { id := "card-2", suit := .clubs, rank := .r3, color := .black, position := 1,
    isFlipped := false, isMatched := false }

/-- A matched (and face-up) card. -/
def cardMatched : Card :=
  { id := "card-3", suit := .spades, rank := .K, color := .black, position := 0,
    isFlipped := true, isMatched := true }

/-- A state one flip away from a color match. -/
def stateOneFlipMatch : GameState :=
  { gameMode := .ai, matchType := .color, boardSize := .b4x4, currentPlayer := "player1",
    players := [sampleHuman, sampleAI], cards := [cardFlippedRed, cardAvailRed],
    flippedCards := [cardFlippedRed], matchedPairs := [], gameStatus := .playing,
    turnStartTime := none, gameStartTime := none, moveHistory := [],
    settings := sampleSettings false }

/-- A state one flip away from a color mismatch. -/
def stateOneFlipMismatch : GameState :=
  { gameMode := .ai, matchType := .color, boardSize := .b4x4, currentPlayer := "player1",
    players := [sampleHuman, sampleAI], cards := [cardFlippedRed, cardAvailBlack],
    flippedCards := [cardFlippedRed], matchedPairs := [], gameStatus := .playing,
    turnStartTime := none, gameStartTime := none, moveHistory := [],
    settings := sampleSettings false }

/-- A card whose id is the empty string (JS-falsy), otherwise available. -/
def cardEmptyId : Card :=
  { id := "", suit := .hearts, rank := .A, color := .red, position := 0,
    isFlipped := false, isMatched := false }

def cardEmptyId2 : Card :=
  { id := "", suit := .spades, rank := .r4, color := .black, position := 3,
    isFlipped := false, isMatched := false }

/-- A playing state whose only card is available but has an empty id. -/
def stateEmptyId : GameState :=
  { gameMode := .ai, matchType := .color, boardSize := .b4x4, currentPlayer := "player1",
    players := [sampleHuman, sampleAI], cards := [cardEmptyId],
    flippedCards := [], matchedPairs := [], gameStatus := .playing,
    turnStartTime := none, gameStartTime := none, moveHistory := [],
    settings := sampleSettings false }

/-- A board with two available cards whose ids are empty, plus a matched and a flipped
card with real ids: `findStrictlyAvailableCards` sees fewer than two candidates and the
AI falls back to an emergency move over the unavailable cards. -/
def cardsEmptyIdBoard : List Card :=
  [{ id := "card-0", suit := .hearts, rank := .A, color := .red, position := 0,
     isFlipped := false, isMatched := true },
   { id := "card-1", suit := .diamonds, rank := .r2, color := .red, position := 1,
     isFlipped := true, isMatched := false },
   cardEmptyId, cardEmptyId2]

/-- A board on which every card is already matched. -/
def cardsAllMatched : List Card :=
  [{ id := "card-0", suit := .hearts, rank := .A, color := .red, position := 0,
     isFlipped := true, isMatched := true },
   { id := "card-1", suit := .diamonds, rank := .A, color := .red, position := 1,
     isFlipped := true, isMatched := true }]

/-- A second available red card, color-matching `cardAvailRed`. -/
def cardAvailRedB : Card :=
  { id := "card-9", suit := .hearts, rank := .r5, color := .red, position := 1,
    isFlipped := false, isMatched := false }

/-- A state with hints disabled but an available matching pair on the board. -/
def stateHintsOff : GameState :=
  { gameMode := .ai, matchType := .color, boardSize := .b4x4, currentPlayer := "player1",
    players := [sampleHuman, sampleAI],
    cards := [cardAvailRed, cardAvailRedB],
    flippedCards := [], matchedPairs := [], gameStatus := .playing,
    turnStartTime := none, gameStartTime := none, moveHistory := [],
    settings := sampleSettings false }

/-- Same board with hints enabled. -/
def stateHintsOn : GameState :=
  { stateHintsOff with settings := sampleSettings true }

/-- A state holding a matched card (for the immutability witness). -/
def stateWithMatched : GameState :=
  { gameMode := .ai, matchType := .color, boardSize := .b4x4, currentPlayer := "player1",
    players := [sampleHuman, sampleAI], cards := [cardMatched, cardAvailRed],
    flippedCards := [], matchedPairs := [], gameStatus := .playing,
    turnStartTime := none, gameStartTime := none, moveHistory := [],
    settings := sampleSettings false }

/-- Oracle that makes the Fisher–Yates shuffle of a 16-card deck the identity
(each loop step draws `j = i`), with zeros for the partner-suit picks. -/
def traceRnd : Rnd :=
  ⟨[], [0, 0, 0, 0, 0, 0, 0, 0, 15, 14, 13, 12, 11, 10, 9, 8, 7, 6, 5, 4, 3, 2, 1]⟩

/-- A freshly initialized 4×4 color game with the identity shuffle: pairs sit adjacent. -/
def traceStart : GameState :=
  initializeGame .ai .color .b4x4 "P1" none (some .easy) none traceRnd 0

/-- The state after flipping positions 0,1,...,15 in order: every adjacent pair matches,
so the game ends with all cards matched. -/
def traceFinished : GameState :=
  (List.range 16).foldl (fun st i => handleCardFlip 0 st i) traceStart


/-! ## Generic list lemmas -/

theorem get?_some_of_lt {α : Type} (l : List α) (i : Nat) (h : i < l.length) :
    ∃ a, l.get? i = some a := by
  simp [List.get?_eq_getElem?, List.getElem?_eq_some_iff]
  exact ⟨l.get ⟨i, h⟩, h, rfl⟩

theorem lt_of_get?_some {α : Type} {l : List α} {i : Nat} {a : α} (h : l.get? i = some a) :
    i < l.length := by
  rw [List.get?_eq_getElem?, List.getElem?_eq_some_iff] at h
  exact h.1

theorem get?_set_self {α : Type} (l : List α) (i : Nat) (a : α) (h : i < l.length) :
    (l.set i a).get? i = some a := by
  simp [List.get?_eq_getElem?, List.getElem?_set_self', h]

theorem get?_set_ne {α : Type} (l : List α) (i j : Nat) (a : α) (h : i ≠ j) :
    (l.set i a).get? j = l.get? j := by
  simp only [List.get?_eq_getElem?]
  exact List.getElem?_set_ne h

theorem set_get?_self {α : Type} (l : List α) (i : Nat) (a : α) (h : l.get? i = some a) :
    l.set i a = l := by
  apply List.ext_get?
  intro j
  by_cases hj : j = i
  · subst hj
    have hlt : j < l.length := lt_of_get?_some h
    simp [List.get?_eq_getElem?, List.getElem?_set_self', hlt]
    simp [List.get?_eq_getElem?, List.getElem?_eq_some_iff] at h
    exact h.2.symm
  · simp only [List.get?_eq_getElem?]
    exact List.getElem?_set_ne (Ne.symm hj)

theorem get?_map {α β : Type} (f : α → β) (l : List α) (i : Nat) :
    (l.map f).get? i = (l.get? i).map f := by
  simp [List.get?_eq_getElem?, List.getElem?_map]

/-- Inserting a remembered element back at its position: `b :: (l.set m c)` is a
permutation of `c :: l` when `l.get? m = some b`. -/
theorem cons_set_perm {α : Type} :
    ∀ (l : List α) (m : Nat) (b c : α), l.get? m = some b → (b :: l.set m c).Perm (c :: l)
  | [], m, b, c, h => by simp [List.get?_eq_getElem?] at h
  | x :: t, 0, b, c, h => by
    simp only [List.get?] at h
    cases h
    exact List.Perm.swap _ _ _
  | x :: t, m + 1, b, c, h => by
    simp only [List.get?] at h
    exact ((List.Perm.swap x b _).trans
      (List.Perm.cons x (cons_set_perm t m b c h))).trans (List.Perm.swap c x t)

/-- The double-`set` swap is a permutation. -/
theorem set_set_perm {α : Type} :
    ∀ (l : List α) (i j : Nat) (a b : α), l.get? i = some a → l.get? j = some b →
      ((l.set i b).set j a).Perm l
  | [], i, _, _, _, h, _ => by simp [List.get?_eq_getElem?] at h
  | x :: t, 0, 0, a, b, hi, hj => by
    simp only [List.get?] at hi hj
    cases hi; cases hj
    simp [List.set]
  | x :: t, 0, m + 1, a, b, hi, hj => by
    simp only [List.get?] at hi hj
    cases hi
    simpa [List.set] using cons_set_perm t m b x hj
  | x :: t, n + 1, 0, a, b, hi, hj => by
    simp only [List.get?] at hi hj
    cases hj
    simpa [List.set] using cons_set_perm t n a x hi
  | x :: t, n + 1, m + 1, a, b, hi, hj => by
    simp only [List.get?] at hi hj
    simp only [List.set]
    exact List.Perm.cons x (set_set_perm t n m a b hi hj)

theorem swapL_perm {α : Type} (l : List α) (i j : Nat) : (swapL l i j).Perm l := by
  unfold swapL
  cases hi : l.get? i with
  | none => exact List.Perm.refl l
  | some a =>
    cases hj : l.get? j with
    | none => exact List.Perm.refl l
    | some b => exact set_set_perm l i j a b hi hj

theorem fyAux_perm {α : Type} : ∀ (n : Nat) (l : List α) (r : Rnd), ((fyAux n l r).1).Perm l
  | 0, l, r => List.Perm.refl l
  | n + 1, l, r => by
    unfold fyAux
    exact (fyAux_perm n _ _).trans (swapL_perm l (n + 1) _)

theorem shuffleArray_perm {α : Type} (l : List α) (r : Rnd) :
    ((shuffleArray l r).1).Perm l := fyAux_perm _ l r

/-- Inclusion–exclusion for `countP`. -/
theorem countP_or_add {α : Type} (p q : α → Bool) :
    ∀ l : List α, l.countP (fun a => p a || q a) + l.countP (fun a => p a && q a) =
      l.countP p + l.countP q
  | [] => rfl
  | x :: t => by
    simp only [List.countP_cons]
    have := countP_or_add p q t
    cases hp : p x <;> cases hq : q x <;> simp <;> omega

/-- A `countP` of a conjunction whose second conjunct follows from the first on the list. -/
theorem countP_and_of_imp {α : Type} (p q : α → Bool) (l : List α)
    (h : ∀ a ∈ l, p a = true → q a = true) :
    l.countP (fun a => p a && q a) = l.countP p := by
  apply List.countP_congr
  intro a ha
  constructor
  · intro hpq
    simp at hpq
    simp [hpq.1]
  · intro hp
    simp at hp
    simp [hp, h a ha hp]

/-- Updating one player record changes the score sum by the score delta. -/
theorem sum_map_set {α : Type} (f : α → Nat) :
    ∀ (l : List α) (k : Nat) (x a : α), l.get? k = some a →
      ((l.set k x).map f).sum + f a = (l.map f).sum + f x
  | [], k, _, _, h => by simp [List.get?_eq_getElem?] at h
  | y :: t, 0, x, a, h => by
    simp only [List.get?] at h
    cases h
    simp [List.set]
    omega
  | y :: t, k + 1, x, a, h => by
    simp only [List.get?] at h
    simp only [List.set, List.map_cons, List.sum_cons]
    have := sum_map_set f t k x a h
    omega

/-- A list map that fixes the projection `g` leaves `l.map g` unchanged. -/
theorem map_map_eq_of_proj {α β : Type} (f : α → α) (g : α → β) (l : List α)
    (h : ∀ a ∈ l, g (f a) = g a) : (l.map f).map g = l.map g := by
  induction l with
  | nil => rfl
  | cons x t ih =>
    simp only [List.map_cons, h x (by simp)]
    rw [ih (fun a ha => h a (by simp [ha]))]

/-- Setting an entry with the same projection value leaves `l.map g` unchanged. -/
theorem map_set_eq_of_proj {α β : Type} (g : α → β) :
    ∀ (l : List α) (k : Nat) (x a : α), l.get? k = some a → g x = g a →
      (l.set k x).map g = l.map g
  | [], k, _, _, h, _ => by simp [List.get?_eq_getElem?] at h
  | y :: t, 0, x, a, h, hg => by
    simp only [List.get?] at h
    cases h
    simp [List.set, hg]
  | y :: t, k + 1, x, a, h, hg => by
    simp only [List.get?] at h
    simp only [List.set, List.map_cons]
    rw [map_set_eq_of_proj g t k x a h hg]

/-! ## Lemmas about the available-index list of the AI -/

theorem fsaAux_length : ∀ (cs : List Card) (i0 : Nat),
    (fsaAux cs i0).length = cs.countP strictlyAvailable
  | [], _ => rfl
  | c :: rest, i0 => by
    simp only [fsaAux, List.countP_cons, strictlyAvailable]
    by_cases h : (c.id != "" && !c.isFlipped && !c.isMatched) = true <;>
      simp [h, fsaAux_length rest (i0 + 1), strictlyAvailable]

theorem fsaAux_mem : ∀ (cs : List Card) (i0 : Nat) (j : Nat), j ∈ fsaAux cs i0 →
    i0 ≤ j ∧ ∃ c, cs.get? (j - i0) = some c ∧ strictlyAvailable c = true
  | [], _, _, h => by simp [fsaAux] at h
  | c :: rest, i0, j, h => by
    simp only [fsaAux] at h
    by_cases hc : (c.id != "" && !c.isFlipped && !c.isMatched) = true
    · rw [if_pos hc] at h
      rcases List.mem_cons.mp h with h0 | h1
      · subst h0
        exact ⟨Nat.le_refl _, c, by simp [List.get?], hc⟩
      · obtain ⟨hle, d, hd, hav⟩ := fsaAux_mem rest (i0 + 1) j h1
        refine ⟨by omega, d, ?_, hav⟩
        have : j - i0 = (j - (i0 + 1)) + 1 := by omega
        rw [this]
        simpa [List.get?] using hd
    · rw [if_neg hc] at h
      obtain ⟨hle, d, hd, hav⟩ := fsaAux_mem rest (i0 + 1) j h
      refine ⟨by omega, d, ?_, hav⟩
      have : j - i0 = (j - (i0 + 1)) + 1 := by omega
      rw [this]
      simpa [List.get?] using hd

theorem fsaAux_ge : ∀ (cs : List Card) (i0 : Nat) (j : Nat), j ∈ fsaAux cs i0 → i0 ≤ j :=
  fun cs i0 j h => (fsaAux_mem cs i0 j h).1

theorem fsaAux_sorted : ∀ (cs : List Card) (i0 : Nat), (fsaAux cs i0).Pairwise (· < ·)
  | [], _ => List.Pairwise.nil
  | c :: rest, i0 => by
    simp only [fsaAux]
    by_cases hc : (c.id != "" && !c.isFlipped && !c.isMatched) = true
    · rw [if_pos hc]
      exact List.Pairwise.cons
        (fun j hj => Nat.lt_of_lt_of_le (Nat.lt_succ_self i0) (fsaAux_ge rest (i0 + 1) j hj))
        (fsaAux_sorted rest (i0 + 1))
    · rw [if_neg hc]
      exact fsaAux_sorted rest (i0 + 1)

/-- Every member of `findStrictlyAvailableCards cards` is an in-bounds index of an
available card with a nonempty id. -/
theorem mem_findStrictlyAvailableCards {cards : List Card} {j : Nat}
    (h : j ∈ findStrictlyAvailableCards cards) :
    ∃ c, cards.get? j = some c ∧ c.id ≠ "" ∧ c.isFlipped = false ∧ c.isMatched = false := by
  obtain ⟨-, c, hc, hav⟩ := fsaAux_mem cards 0 j h
  simp only [Nat.sub_zero] at hc
  simp only [strictlyAvailable, Bool.and_eq_true, bne_iff_ne, Bool.not_eq_true'] at hav
  exact ⟨c, hc, hav.1.1, hav.1.2, hav.2⟩

/-- A move made of two members of the available-index list satisfies the claimed
legality conditions: distinct would require order; availability and bounds hold. -/
theorem legal_of_avail_mem {cards : List Card} {j : Nat}
    (h : j ∈ findStrictlyAvailableCards cards) :
    j < cards.length ∧ ∃ c, cards.get? j = some c ∧ c.isFlipped = false ∧ c.isMatched = false := by
  obtain ⟨c, hc, -, hf, hm⟩ := mem_findStrictlyAvailableCards h
  exact ⟨lt_of_get?_some hc, c, hc, hf, hm⟩

/-! ## Lemmas about deck generation -/

theorem cardIdStr_ne (n : Nat) : cardIdStr n ≠ "" := by
  intro h
  have hlen := congrArg String.length h
  simp [cardIdStr, String.length_append] at hlen
  exact absurd hlen.1 (by decide)

theorem genPairsAux_length (mt : MatchType) :
    ∀ (n i : Nat) (r : Rnd), (genPairsAux mt n i r).1.length = 2 * n
  | 0, _, _ => rfl
  | n + 1, i, r => by
    simp only [genPairsAux]
    simp [genPairsAux_length mt n (i + 1)]
    omega

theorem genPairsAux_ids (mt : MatchType) :
    ∀ (n i : Nat) (r : Rnd), (genPairsAux mt n i r).1.map (·.id) =
      (List.range (2 * n)).map (fun k => cardIdStr (2 * i + k))
  | 0, _, _ => rfl
  | n + 1, i, r => by
    simp only [genPairsAux, List.map_cons]
    rw [genPairsAux_ids mt n (i + 1)]
    have h2 : 2 * (n + 1) = (2 * n + 1) + 1 := by omega
    rw [h2, List.range_succ_eq_map, List.range_succ_eq_map]
    simp only [List.map_cons, List.map_map]
    refine congrArg₂ _ (by simp) (congrArg₂ _ (by simp) ?_)
    apply List.map_congr_left
    intro k _
    simp [Function.comp]
    congr 1
    omega

theorem genPairsAux_flags (mt : MatchType) :
    ∀ (n i : Nat) (r : Rnd), ∀ c ∈ (genPairsAux mt n i r).1,
      c.isFlipped = false ∧ c.isMatched = false ∧ ∃ k, c.id = cardIdStr k
  | 0, _, _ => by intro c hc; simp [genPairsAux] at hc
  | n + 1, i, r => by
    intro c hc
    simp only [genPairsAux, List.mem_cons] at hc
    rcases hc with h | h | h
    · subst h; exact ⟨rfl, rfl, 2 * i, rfl⟩
    · subst h; exact ⟨rfl, rfl, 2 * i + 1, rfl⟩
    · exact genPairsAux_flags mt n (i + 1) _ c h

theorem reposition_length : ∀ (i : Nat) (l : List Card), (reposition i l).length = l.length
  | _, [] => rfl
  | i, _ :: t => by simp [reposition, reposition_length (i + 1) t]

theorem reposition_map_id : ∀ (i : Nat) (l : List Card),
    (reposition i l).map (·.id) = l.map (·.id)
  | _, [] => rfl
  | i, c :: t => by simp [reposition, reposition_map_id (i + 1) t]

theorem mem_reposition : ∀ (i : Nat) (l : List Card) (c : Card), c ∈ reposition i l →
    ∃ c2 ∈ l, c.id = c2.id ∧ c.isFlipped = c2.isFlipped ∧ c.isMatched = c2.isMatched
  | _, [], c, h => by simp [reposition] at h
  | i, x :: t, c, h => by
    simp only [reposition, List.mem_cons] at h
    rcases h with h | h
    · exact ⟨x, by simp, by simp [h]⟩
    · obtain ⟨c2, hc2, hp⟩ := mem_reposition (i + 1) t c h
      exact ⟨c2, by simp [hc2], hp⟩

/-- The generated deck has exactly the cell count of the board of cards. -/
theorem generateGameCards_length (bs : BoardSize) (mt : MatchType) (r : Rnd) :
    (generateGameCards bs mt r).1.length = (getBoardDimensions bs).2.2 := by
  unfold generateGameCards
  simp only [reposition_length]
  rw [(shuffleArray_perm _ _).length_eq, genPairsAux_length]
  cases bs <;> rfl

/-- Every card of the generated deck is face down, unmatched, and carries a
`card-n` id (in particular a nonempty one). -/
theorem generateGameCards_flags (bs : BoardSize) (mt : MatchType) (r : Rnd) :
    ∀ c ∈ (generateGameCards bs mt r).1,
      c.isFlipped = false ∧ c.isMatched = false ∧ c.id ≠ "" := by
  intro c hc
  unfold generateGameCards at hc
  simp only at hc
  obtain ⟨c2, hc2, hid, hf, hm⟩ := mem_reposition _ _ _ hc
  have hmem := (shuffleArray_perm _ _).mem_iff.mp hc2
  obtain ⟨hf2, hm2, k, hk⟩ := genPairsAux_flags mt _ 0 _ c2 hmem
  refine ⟨by rw [hf, hf2], by rw [hm, hm2], ?_⟩
  rw [hid, hk]
  exact cardIdStr_ne k

/-- The ids of the generated deck are pairwise distinct. -/
theorem generateGameCards_nodup (bs : BoardSize) (mt : MatchType) (r : Rnd) :
    ((generateGameCards bs mt r).1.map (·.id)).Nodup := by
  unfold generateGameCards
  simp only [reposition_map_id]
  have hperm := (shuffleArray_perm (genPairsAux mt ((getBoardDimensions bs).2.2 / 2) 0 r).1
    (genPairsAux mt ((getBoardDimensions bs).2.2 / 2) 0 r).2).map (·.id)
  rw [hperm.nodup_iff, genPairsAux_ids]
  cases bs <;> · simp only [getBoardDimensions]; decide

/-! ## findIdx? and uniqueness helpers -/

theorem findIdx?_some_spec {α : Type} (p : α → Bool) :
    ∀ (l : List α) (i k : Nat), l.findIdx? p i = some k →
      i ≤ k ∧ ∃ a, l.get? (k - i) = some a ∧ p a = true
  | [], _, _, h => by simp [List.findIdx?] at h
  | x :: t, i, k, h => by
    rw [List.findIdx?_cons] at h
    by_cases hp : p x = true
    · rw [if_pos hp] at h
      cases h
      exact ⟨Nat.le_refl _, x, by simp [List.get?], hp⟩
    · rw [if_neg hp] at h
      obtain ⟨hle, a, ha, hpa⟩ := findIdx?_some_spec p t (i + 1) k h
      refine ⟨by omega, a, ?_, hpa⟩
      have : k - i = (k - (i + 1)) + 1 := by omega
      rw [this]
      simpa [List.get?] using ha

theorem findIdx?_isSome_of_mem {α : Type} (p : α → Bool) :
    ∀ (l : List α) (i : Nat), (∃ a ∈ l, p a = true) → ∃ k, l.findIdx? p i = some k
  | [], _, h => by simp at h
  | x :: t, i, h => by
    rw [List.findIdx?_cons]
    by_cases hp : p x = true
    · exact ⟨i, by rw [if_pos hp]⟩
    · obtain ⟨a, ha, hpa⟩ := h
      rcases List.mem_cons.mp ha with rfl | hat
      · exact absurd hpa hp
      · obtain ⟨k, hk⟩ := findIdx?_isSome_of_mem p t (i + 1) ⟨a, hat, hpa⟩
        exact ⟨k, by rw [if_neg hp]; exact hk⟩

/-- A current player occurring among the player ids can be located by `findIdx?`:
there is an index `k` whose player carries that id. -/
theorem findIdx?_player (players : List Player) (cur : String)
    (h : cur ∈ players.map (·.id)) :
    ∃ k p, players.findIdx? (fun q => q.id == cur) = some k ∧
      players.get? k = some p ∧ p.id = cur := by
  obtain ⟨p0, hp0, hid⟩ := List.mem_map.mp h
  obtain ⟨k, hk⟩ := findIdx?_isSome_of_mem (fun q => q.id == cur) players 0
    ⟨p0, hp0, by simp [hid]⟩
  obtain ⟨-, a, ha, hpa⟩ := findIdx?_some_spec _ players 0 k hk
  simp only [Nat.sub_zero] at ha
  exact ⟨k, a, hk, ha, by simpa using hpa⟩

theorem mem_get? {α : Type} {l : List α} {a : α} (h : a ∈ l) : ∃ i, l.get? i = some a := by
  obtain ⟨i, hi⟩ := List.get_of_mem h
  refine ⟨i, ?_⟩
  rw [List.get?_eq_getElem?, List.getElem?_eq_some_iff]
  exact ⟨i.2, by simpa using hi⟩

/-- When the `id` projection of a card list has no duplicates, any member whose id agrees
with the entry at position `k` is that entry. -/
theorem eq_of_nodup_id {l : List Card} (hnd : (l.map (·.id)).Nodup) {k : Nat} {a : Card}
    (hk : l.get? k = some a) : ∀ c ∈ l, c.id = a.id → c = a := by
  intro c hc hid
  obtain ⟨kc, hkc⟩ := mem_get? hc
  have hklen : k < l.length := lt_of_get?_some hk
  have hkclen : kc < l.length := lt_of_get?_some hkc
  have hmap : (l.map (·.id)).get ⟨kc, by simpa using hkclen⟩ =
      (l.map (·.id)).get ⟨k, by simpa using hklen⟩ := by
    simp only [List.get_eq_getElem, List.getElem_map]
    have h1 : l[kc] = c := by
      have := hkc; simp [List.get?_eq_getElem?, List.getElem?_eq_some_iff] at this
      exact this.2
    have h2 : l[k] = a := by
      have := hk; simp [List.get?_eq_getElem?, List.getElem?_eq_some_iff] at this
      exact this.2
    rw [h1, h2, hid]
  have := (List.Nodup.get_inj_iff hnd).mp hmap
  have hkk : kc = k := by simpa using this
  subst hkk
  rw [hk] at hkc
  exact Option.some_inj.mp hkc.symm

/-- In a list with duplicate-free ids, the id of the entry at `k` is counted once. -/
theorem countP_id_eq_one {l : List Card} (hnd : (l.map (·.id)).Nodup) {k : Nat} {a : Card}
    (hk : l.get? k = some a) : l.countP (fun c => c.id == a.id) = 1 := by
  have hcount : (l.map (·.id)).count a.id = l.countP (fun c => c.id == a.id) := by
    rw [List.count_eq_countP, List.countP_map]
    rfl
  have hle : (l.map (·.id)).count a.id ≤ 1 := List.nodup_iff_count_le_one.mp hnd _
  have hmem : a.id ∈ l.map (·.id) := List.mem_map.mpr ⟨a, List.get?_mem hk, rfl⟩
  have hpos : 0 < (l.map (·.id)).count a.id := List.count_pos_iff.mpr hmem
  omega

/-- The `countP` is unchanged by `set` when the predicate agrees on old and new entries. -/
theorem countP_set_congr {α : Type} (p : α → Bool) :
    ∀ (l : List α) (k : Nat) (x a : α), l.get? k = some a → p x = p a →
      (l.set k x).countP p = l.countP p
  | [], k, _, _, h, _ => by simp [List.get?_eq_getElem?] at h
  | y :: t, 0, x, a, h, hp => by
    simp only [List.get?] at h
    cases h
    simp [List.set, List.countP_cons, hp]
  | y :: t, k + 1, x, a, h, hp => by
    simp only [List.get?] at h
    simp only [List.set, List.countP_cons]
    rw [countP_set_congr p t k x a h hp]

/-! ## The reachable-state invariant -/

/-- The `GameInv` only reads the fields listed here. -/
theorem GameInv.of_fields {s s' : GameState} (h : GameInv s)
    (hc : s'.cards = s.cards) (hp : s'.players = s.players)
    (hm : s'.matchedPairs = s.matchedPairs) (hf : s'.flippedCards = s.flippedCards)
    (hcur : s'.currentPlayer = s.currentPlayer) (hmode : s'.gameMode = s.gameMode) :
    GameInv s' := by
  constructor
  · rw [hc]; exact h.nodup
  · rw [hc]; exact h.ids_ne
  · unfold sumScores; rw [hp, hm]; exact h.score_eq
  · rw [hc, hm]; exact h.matched_eq
  · rw [hf, hc]; exact h.flip_inv
  · rw [hf]; exact h.flip_nodup
  · rw [hp, hmode]; exact h.mode_players
  · rw [hcur, hp]; exact h.cur_mem

theorem canFlipCard_spec (s : GameState) (i : Nat) :
    canFlipCard s i = true ↔ ∃ c, s.cards.get? i = some c ∧ c.id ≠ "" ∧
      s.gameStatus = .playing ∧ c.isFlipped = false ∧ c.isMatched = false ∧
      s.flippedCards.length < 2 := by
  unfold canFlipCard
  cases hc : s.cards.get? i with
  | none => simp
  | some c =>
    by_cases hid : c.id = ""
    · simp [hid]
    · constructor
      · intro h
        dsimp only at h
        rw [if_neg (by simpa using hid)] at h
        simp only [Bool.and_eq_true, beq_iff_eq, Bool.not_eq_true', decide_eq_true_eq] at h
        exact ⟨c, rfl, hid, h.1.1.1, h.1.1.2, h.1.2, h.2⟩
      · rintro ⟨c2, hc2, hid2, hst, hf, hm, hlen⟩
        cases hc2
        dsimp only
        rw [if_neg (by simpa using hid)]
        simp [hst, hf, hm, hlen]

theorem getNextPlayer_mem (s : GameState) (hne : s.players ≠ []) :
    getNextPlayer s ∈ s.players.map (·.id) := by
  unfold getNextPlayer
  have hlen : 0 < s.players.length := List.length_pos.mpr hne
  have hget : ∀ n, n < s.players.length →
      (match s.players.get? n with
        | some p => p.id
        | none => s.currentPlayer) ∈ s.players.map (·.id) := by
    intro n hn
    obtain ⟨p, hp⟩ := get?_some_of_lt _ n hn
    rw [hp]
    exact List.mem_map.mpr ⟨p, List.get?_mem hp, rfl⟩
  cases hidx : s.players.findIdx? (fun p => p.id == s.currentPlayer) with
  | none => exact hget 0 hlen
  | some k => exact hget _ (Nat.mod_lt _ hlen)

theorem markFun_isMatched (id1 id2 : String) (h1 : id1 ≠ "") (h2 : id2 ≠ "") (c : Card) :
    (markFun id1 id2 c).isMatched = (c.isMatched || (c.id == id1 || c.id == id2)) := by
  unfold markFun
  by_cases hid : c.id = ""
  · have e1 : (c.id == id1) = false := beq_eq_false_iff_ne.mpr (by rw [hid]; exact fun h => h1 h.symm)
    have e2 : (c.id == id2) = false := beq_eq_false_iff_ne.mpr (by rw [hid]; exact fun h => h2 h.symm)
    rw [if_pos (by simp [hid]), e1, e2]
    simp
  · rw [if_neg (by simpa using hid)]
    by_cases hm : (c.id == id1 || c.id == id2) = true
    · rw [if_pos hm, hm]
      simp
    · rw [if_neg hm, (by simpa using hm : (c.id == id1 || c.id == id2) = false)]
      simp

theorem markFun_id (id1 id2 : String) (c : Card) : (markFun id1 id2 c).id = c.id := by
  unfold markFun
  by_cases hid : c.id = "" <;> by_cases hm : (c.id == id1 || c.id == id2) = true <;>
    simp [hid, hm]

/-- Marking the two (distinct, present, unmatched) ids raises the matched count by two. -/
theorem marked_countP (l : List Card) (id1 id2 : String)
    (hid1 : id1 ≠ "") (hid2 : id2 ≠ "") (hne : id1 ≠ id2)
    (h1 : l.countP (fun c => c.id == id1) = 1) (h2 : l.countP (fun c => c.id == id2) = 1)
    (hu1 : ∀ c ∈ l, c.id = id1 → c.isMatched = false)
    (hu2 : ∀ c ∈ l, c.id = id2 → c.isMatched = false) :
    (l.map (markFun id1 id2)).countP (·.isMatched) = l.countP (·.isMatched) + 2 := by
  rw [List.countP_map]
  have hpt : l.countP ((fun c : Card => c.isMatched) ∘ markFun id1 id2) =
      l.countP (fun c => c.isMatched || (c.id == id1 || c.id == id2)) := by
    apply List.countP_congr
    intro c _
    simp only [Function.comp, markFun_isMatched id1 id2 hid1 hid2 c]
  rw [hpt]
  have hor := countP_or_add (fun c : Card => c.isMatched)
    (fun c => c.id == id1 || c.id == id2) l
  have hand : l.countP (fun c => c.isMatched && (c.id == id1 || c.id == id2)) = 0 := by
    rw [List.countP_eq_zero]
    intro c hc hcontra
    simp only [Bool.and_eq_true, Bool.or_eq_true, beq_iff_eq] at hcontra
    rcases hcontra.2 with h | h
    · rw [hu1 c hc h] at hcontra; exact Bool.noConfusion hcontra.1
    · rw [hu2 c hc h] at hcontra; exact Bool.noConfusion hcontra.1
  have hor2 := countP_or_add (fun c : Card => c.id == id1) (fun c => c.id == id2) l
  have hand2 : l.countP (fun c => c.id == id1 && c.id == id2) = 0 := by
    rw [List.countP_eq_zero]
    intro c _ hcontra
    simp only [Bool.and_eq_true, beq_iff_eq] at hcontra
    exact hne (hcontra.1.symm.trans hcontra.2)
  omega

theorem players_ne_nil_of_inv {s : GameState} (hinv : GameInv s) : s.players ≠ [] := by
  intro h
  have := hinv.mode_players
  rw [h] at this
  cases hm : s.gameMode <;> rw [hm] at this <;> exact absurd this.symm (by simp [modeIds])


theorem inv_if_finished (X : GameState) (h : GameInv X) :
    GameInv (if isGameFinished X = true then { X with gameStatus := .finished } else X) := by
  by_cases hf : isGameFinished X = true
  · rw [if_pos hf]
    exact GameInv.of_fields h rfl rfl rfl rfl rfl rfl
  · rw [if_neg hf]
    exact h

theorem inv_processCardPair (t : Nat) (s : GameState) (hinv : GameInv s) :
    GameInv (processCardPair t s) := by
  unfold processCardPair
  rcases hfc : s.flippedCards with - | ⟨card1, - | ⟨card2, - | ⟨c3, rest⟩⟩⟩
  · exact hinv
  · exact hinv
  case cons.cons.nil =>
    dsimp only
    by_cases hid1 : card1.id = ""
    · rw [if_pos (by simp [hid1])]
      exact hinv
    by_cases hid2 : card2.id = ""
    · rw [if_pos (by simp [hid2])]
      exact hinv
    rw [if_neg (by simp [hid1, hid2])]
    have hm1 : card1 ∈ s.flippedCards := by rw [hfc]; simp
    have hm2 : card2 ∈ s.flippedCards := by rw [hfc]; simp
    obtain ⟨k1, a1, hk1, ha1id, ha1f, ha1m⟩ := hinv.flip_inv card1 hm1
    obtain ⟨k2, a2, hk2, ha2id, ha2f, ha2m⟩ := hinv.flip_inv card2 hm2
    have hne12 : card1.id ≠ card2.id := by
      have := hinv.flip_nodup
      rw [hfc] at this
      simp at this
      exact this
    by_cases hmatch : cardsMatch card1 card2 s.matchType = true
    · simp only [hmatch, if_true]
      obtain ⟨k, p, hk, hp, hpid⟩ := findIdx?_player s.players s.currentPlayer hinv.cur_mem
      rw [hk]
      dsimp only
      rw [hp]
      dsimp only
      apply inv_if_finished
      have hmark : (fun card =>
          if (card.id == "") = true then card
          else if (card.id == card1.id || card.id == card2.id) = true then
            { card with isMatched := true, isFlipped := true }
          else card) = markFun card1.id card2.id := rfl
      have hcount1 : s.cards.countP (fun c => c.id == card1.id) = 1 := by
        have := countP_id_eq_one hinv.nodup hk1
        rw [ha1id] at this
        exact this
      have hcount2 : s.cards.countP (fun c => c.id == card2.id) = 1 := by
        have := countP_id_eq_one hinv.nodup hk2
        rw [ha2id] at this
        exact this
      have hu1 : ∀ c ∈ s.cards, c.id = card1.id → c.isMatched = false := by
        intro c hc hcid
        have he : c = a1 := eq_of_nodup_id hinv.nodup hk1 c hc (hcid.trans ha1id.symm)
        rw [he]
        exact ha1m
      have hu2 : ∀ c ∈ s.cards, c.id = card2.id → c.isMatched = false := by
        intro c hc hcid
        have he : c = a2 := eq_of_nodup_id hinv.nodup hk2 c hc (hcid.trans ha2id.symm)
        rw [he]
        exact ha2m
      constructor
      · dsimp only
        rw [hmark, map_map_eq_of_proj _ _ _ (fun a _ => markFun_id card1.id card2.id a)]
        exact hinv.nodup
      · dsimp only
        rw [hmark]
        intro c hc
        obtain ⟨c0, hc0, hc0e⟩ := List.mem_map.mp hc
        rw [← hc0e, markFun_id]
        exact hinv.ids_ne c0 hc0
      · unfold sumScores
        dsimp only
        have hsum := sum_map_set (·.score) s.players k
          { p with score := p.score + 1, «matches» := p.«matches» ++ [[card1, card2]] } p hp
        dsimp only at hsum
        have hs0 := hinv.score_eq
        unfold sumScores at hs0
        simp only [List.length_append, List.length_cons, List.length_nil]
        omega
      · dsimp only
        rw [hmark]
        simp only [List.length_append, List.length_cons, List.length_nil]
        rw [marked_countP s.cards card1.id card2.id hid1 hid2 hne12 hcount1 hcount2 hu1 hu2]
        have := hinv.matched_eq
        omega
      · intro fc hfc2
        simp at hfc2
      · simp
      · dsimp only
        rw [map_set_eq_of_proj (·.id) s.players k
          { p with score := p.score + 1, «matches» := p.«matches» ++ [[card1, card2]] } p hp (by rfl)]
        exact hinv.mode_players
      · dsimp only
        rw [map_set_eq_of_proj (·.id) s.players k
          { p with score := p.score + 1, «matches» := p.«matches» ++ [[card1, card2]] } p hp (by rfl)]
        exact hinv.cur_mem
    · simp only [hmatch, if_false, Bool.false_eq_true]
      apply inv_if_finished
      constructor
      · exact hinv.nodup
      · exact hinv.ids_ne
      · unfold sumScores
        exact hinv.score_eq
      · exact hinv.matched_eq
      · intro fc hfcm
        exact hinv.flip_inv fc (by rw [hfc]; exact hfcm)
      · have := hinv.flip_nodup
        rw [hfc] at this
        exact this
      · exact hinv.mode_players
      · dsimp only
        by_cases hmode : (s.gameMode == GameMode.aiVsAi) = true
        · rw [if_pos hmode]
          exact hinv.cur_mem
        · rw [if_neg hmode]
          exact getNextPlayer_mem s (players_ne_nil_of_inv hinv)
  case cons.cons.cons => exact hinv

theorem inv_handleCardFlip (t : Nat) (s : GameState) (hinv : GameInv s) (i : Nat) :
    GameInv (handleCardFlip t s i) := by
  unfold handleCardFlip
  by_cases hcf : canFlipCard s i = true
  · rw [if_neg (by simp [hcf])]
    obtain ⟨c, hc, hid, hst, hf, hm, hlen⟩ := (canFlipCard_spec s i).mp hcf
    rw [hc]
    dsimp only
    rw [if_neg (by simpa using hid)]
    have hilen : i < s.cards.length := lt_of_get?_some hc
    have hs1 : GameInv
        { s with cards := s.cards.set i { c with isFlipped := true }
                 flippedCards := s.flippedCards ++ [{ c with isFlipped := true }] } := by
      constructor
      · dsimp only
        rw [map_set_eq_of_proj (·.id) s.cards i { c with isFlipped := true } c hc (by rfl)]
        exact hinv.nodup
      · dsimp only
        intro c2 hc2
        rcases List.mem_or_eq_of_mem_set hc2 with h | h
        · exact hinv.ids_ne c2 h
        · rw [h]
          exact hid
      · unfold sumScores
        exact hinv.score_eq
      · dsimp only
        rw [countP_set_congr (·.isMatched) s.cards i { c with isFlipped := true } c hc (by rfl)]
        exact hinv.matched_eq
      · dsimp only
        intro fc hfc
        rcases List.mem_append.mp hfc with hfc | hfc
        · obtain ⟨k, a, hk, haid, haf, ham⟩ := hinv.flip_inv fc hfc
          have hki : k ≠ i := by
            intro he
            rw [he, hc] at hk
            cases hk
            rw [hf] at haf
            exact Bool.noConfusion haf
          exact ⟨k, a, by rw [get?_set_ne _ _ _ _ (fun he => hki he.symm)]; exact hk,
            haid, haf, ham⟩
        · have hfce : fc = { c with isFlipped := true } := by simpa using hfc
          exact ⟨i, { c with isFlipped := true }, get?_set_self _ _ _ hilen,
            by rw [hfce], rfl, by simpa using hm⟩
      · dsimp only
        rw [List.map_append]
        rw [List.nodup_append]
        refine ⟨hinv.flip_nodup, by simp, ?_⟩
        intro x hx hx2
        have hxc : x = c.id := by simpa using hx2
        obtain ⟨fc, hfc, hfcid⟩ := List.mem_map.mp hx
        obtain ⟨k, a, hk, haid, haf, ham⟩ := hinv.flip_inv fc hfc
        have hac : a = c := by
          apply eq_of_nodup_id hinv.nodup hc a (List.get?_mem hk)
          rw [haid, hfcid, hxc]
        rw [hac, hf] at haf
        exact Bool.noConfusion haf
      · exact hinv.mode_players
      · exact hinv.cur_mem
    by_cases h2 : ((s.flippedCards ++ [{ c with isFlipped := true }]).length == 2) = true
    · rw [if_pos h2]
      exact inv_processCardPair t _ hs1
    · rw [if_neg h2]
      exact hs1
  · rw [if_pos (by simp [hcf])]
    exact hinv

theorem inv_resetFlippedCardsWithDelay (s : GameState) (hinv : GameInv s) :
    GameInv (resetFlippedCardsWithDelay s) := by
  unfold resetFlippedCardsWithDelay resetFlippedCards
  constructor
  · dsimp only
    rw [map_map_eq_of_proj _ _ _ (fun a _ => by
      by_cases h : (a.isFlipped && !a.isMatched) = true <;> simp [h])]
    exact hinv.nodup
  · dsimp only
    intro c2 hc2
    obtain ⟨c0, hc0, hc0e⟩ := List.mem_map.mp hc2
    have : c2.id = c0.id := by
      rw [← hc0e]
      by_cases h : (c0.isFlipped && !c0.isMatched) = true <;> simp [h]
    rw [this]
    exact hinv.ids_ne c0 hc0
  · unfold sumScores
    exact hinv.score_eq
  · dsimp only
    rw [List.countP_map]
    have : s.cards.countP ((fun x => x.isMatched) ∘ fun card =>
        if card.isFlipped && !card.isMatched then { card with isFlipped := false } else card) =
        s.cards.countP (·.isMatched) := by
      apply List.countP_congr
      intro a _
      by_cases h : (a.isFlipped && !a.isMatched) = true <;> simp [Function.comp, h]
    rw [this]
    exact hinv.matched_eq
  · dsimp only
    intro fc hfc
    simp at hfc
  · simp
  · exact hinv.mode_players
  · exact hinv.cur_mem

theorem inv_hookMismatchReset (s : GameState) (hinv : GameInv s) :
    GameInv (hookMismatchReset s) := by
  unfold hookMismatchReset
  have hmap : ∀ a : Card,
      (if a.id == "" then a
       else if a.isMatched then a
       else if a.isFlipped && !a.isMatched then { a with isFlipped := false } else a).id = a.id ∧
      (if a.id == "" then a
       else if a.isMatched then a
       else if a.isFlipped && !a.isMatched then { a with isFlipped := false } else a).isMatched
        = a.isMatched := by
    intro a
    by_cases h0 : (a.id == "") = true
    · simp [h0]
    · by_cases h1 : a.isMatched = true
      · simp [h0, h1]
      · by_cases h2 : a.isFlipped = true <;> simp [h0, h1, h2]
  constructor
  · dsimp only
    rw [map_map_eq_of_proj _ _ _ (fun a _ => (hmap a).1)]
    exact hinv.nodup
  · dsimp only
    intro c2 hc2
    obtain ⟨c0, hc0, hc0e⟩ := List.mem_map.mp hc2
    rw [← hc0e, (hmap c0).1]
    exact hinv.ids_ne c0 hc0
  · unfold sumScores
    exact hinv.score_eq
  · dsimp only
    rw [List.countP_map]
    have : s.cards.countP ((fun x => x.isMatched) ∘ fun card =>
        if card.id == "" then card
        else if card.isMatched then card
        else if card.isFlipped && !card.isMatched then { card with isFlipped := false }
        else card) = s.cards.countP (·.isMatched) := by
      apply List.countP_congr
      intro a _
      rw [Function.comp, (hmap a).2]
    rw [this]
    exact hinv.matched_eq
  · dsimp only
    intro fc hfc
    simp at hfc
  · simp
  · exact hinv.mode_players
  · dsimp only
    by_cases hmode : (s.gameMode == GameMode.aiVsAi) = true
    · rw [if_pos hmode]
      rw [hinv.mode_players, (by simpa using hmode : s.gameMode = GameMode.aiVsAi)]
      by_cases hai : (s.currentPlayer == "ai1") = true <;> simp [modeIds, hai]
    · rw [if_neg hmode]
      have hmode2 : s.gameMode ≠ GameMode.aiVsAi := by simpa using hmode
      cases hfind : s.players.find? (fun p => p.«type» == PlayerType.human) with
      | none =>
        dsimp only [Option.map]
        cases hgm : s.gameMode with
        | aiVsAi => exact absurd hgm hmode2
        | ai => simp [hinv.mode_players, hgm, modeIds]
        | localMultiplayer => simp [hinv.mode_players, hgm, modeIds]
      | some p =>
        have hpm : p ∈ s.players := List.mem_of_find?_eq_some hfind
        have hpid : p.id ∈ s.players.map (·.id) := List.mem_map.mpr ⟨p, hpm, rfl⟩
        dsimp only [Option.map]
        by_cases hempty : (p.id == "") = true
        · rw [if_pos (by simpa using hempty)]
          cases hgm : s.gameMode with
          | aiVsAi => exact absurd hgm hmode2
          | ai => simp [hinv.mode_players, hgm, modeIds]
          | localMultiplayer => simp [hinv.mode_players, hgm, modeIds]
        · rw [if_neg (by simpa using hempty)]
          exact hpid

theorem inv_toggleGamePause (t : Nat) (s : GameState) (hinv : GameInv s) :
    GameInv (toggleGamePause t s) := by
  unfold toggleGamePause
  exact GameInv.of_fields hinv rfl rfl rfl rfl rfl rfl

theorem inv_initializeGame (gameMode : GameMode) (matchType : MatchType)
    (boardSize : BoardSize) (p1 : String) (p2 : Option String)
    (d1 d2 : Option AIDifficulty) (r : Rnd) (now : Nat) :
    GameInv (initializeGame gameMode matchType boardSize p1 p2 d1 d2 r now) := by
  have hflags := generateGameCards_flags boardSize matchType r
  constructor
  · exact generateGameCards_nodup boardSize matchType r
  · intro c hc
    exact (hflags c hc).2.2
  · unfold sumScores initializeGame
    cases gameMode <;> simp
  · unfold initializeGame
    dsimp only
    rw [List.countP_eq_zero.mpr (fun c hc => by simp [(hflags c hc).2.1])]
    simp
  · intro fc hfc
    unfold initializeGame at hfc
    simp at hfc
  · unfold initializeGame
    simp
  · unfold initializeGame
    cases gameMode <;> simp [modeIds]
  · unfold initializeGame
    cases gameMode <;> simp

theorem inv_of_reaches {s : GameState} (h : Reaches s) : GameInv s := by
  induction h with
  | init gameMode matchType boardSize p1 p2 d1 d2 r now =>
    exact inv_initializeGame gameMode matchType boardSize p1 p2 d1 d2 r now
  | flip h t i ih => exact inv_handleCardFlip t _ ih i
  | reset h ih => exact inv_resetFlippedCardsWithDelay _ ih
  | hookReset h ih => exact inv_hookMismatchReset _ ih
  | pause h t ih => exact inv_toggleGamePause t _ ih

/-! ## Finished-status lemmas (claim C5) -/

theorem finish_if_helper (Y : GameState) (hY : Y.gameStatus ≠ .finished)
    (h : (if isGameFinished Y = true then { Y with gameStatus := .finished } else Y).gameStatus
      = .finished) :
    ∀ c ∈ (if isGameFinished Y = true then { Y with gameStatus := .finished } else Y).cards,
      c.isMatched = true := by
  by_cases hf : isGameFinished Y = true
  · rw [if_pos hf] at h ⊢
    intro c hc
    unfold isGameFinished at hf
    rw [List.all_eq_true] at hf
    exact hf c hc
  · rw [if_neg hf] at h
    exact absurd h hY

theorem processCardPair_finished (t : Nat) (s1 : GameState)
    (hst : s1.gameStatus ≠ .finished) (hfin : (processCardPair t s1).gameStatus = .finished) :
    ∀ c ∈ (processCardPair t s1).cards, c.isMatched = true := by
  unfold processCardPair at hfin ⊢
  rcases hfc : s1.flippedCards with - | ⟨card1, - | ⟨card2, - | ⟨c3, rest⟩⟩⟩
  · rw [hfc] at hfin; exact absurd hfin hst
  · rw [hfc] at hfin; exact absurd hfin hst
  case cons.cons.cons => rw [hfc] at hfin; exact absurd hfin hst
  case cons.cons.nil =>
    rw [hfc] at hfin
    dsimp only at hfin ⊢
    by_cases hid : (card1.id == "" || card2.id == "") = true
    · rw [if_pos hid] at hfin
      exact absurd hfin hst
    rw [if_neg hid] at hfin ⊢
    exact finish_if_helper _ hst hfin

theorem handleCardFlip_finished (t : Nat) (s : GameState) (i : Nat)
    (ih : s.gameStatus = .finished → ∀ c ∈ s.cards, c.isMatched = true)
    (hfin : (handleCardFlip t s i).gameStatus = .finished) :
    ∀ c ∈ (handleCardFlip t s i).cards, c.isMatched = true := by
  unfold handleCardFlip at hfin ⊢
  by_cases hcf : canFlipCard s i = true
  · rw [if_neg (by simp [hcf])] at hfin ⊢
    obtain ⟨c, hc, hid, hst, hf, hm, hlen⟩ := (canFlipCard_spec s i).mp hcf
    rw [hc] at hfin ⊢
    dsimp only at hfin ⊢
    rw [if_neg (by simpa using hid)] at hfin ⊢
    have hstne : s.gameStatus ≠ .finished := by
      rw [hst]
      exact fun hh => GameStatus.noConfusion hh
    by_cases h2 : ((s.flippedCards ++ [{ c with isFlipped := true }]).length == 2) = true
    · rw [if_pos h2] at hfin ⊢
      exact processCardPair_finished t _ hstne hfin
    · rw [if_neg h2] at hfin ⊢
      exact absurd hfin hstne
  · rw [if_pos (by simp [hcf])] at hfin ⊢
    exact ih hfin

theorem reset_finished (s : GameState)
    (ih : s.gameStatus = .finished → ∀ c ∈ s.cards, c.isMatched = true)
    (hfin : (resetFlippedCardsWithDelay s).gameStatus = .finished) :
    ∀ c ∈ (resetFlippedCardsWithDelay s).cards, c.isMatched = true := by
  unfold resetFlippedCardsWithDelay resetFlippedCards at hfin ⊢
  dsimp only at hfin ⊢
  intro c hc
  obtain ⟨c0, hc0, hc0e⟩ := List.mem_map.mp hc
  have hm0 := ih hfin c0 hc0
  rw [← hc0e, hm0]
  simp [hm0]

theorem hookReset_finished (s : GameState)
    (ih : s.gameStatus = .finished → ∀ c ∈ s.cards, c.isMatched = true)
    (hfin : (hookMismatchReset s).gameStatus = .finished) :
    ∀ c ∈ (hookMismatchReset s).cards, c.isMatched = true := by
  unfold hookMismatchReset at hfin ⊢
  dsimp only at hfin ⊢
  intro c hc
  obtain ⟨c0, hc0, hc0e⟩ := List.mem_map.mp hc
  have hm0 := ih hfin c0 hc0
  rw [← hc0e]
  by_cases h0 : (c0.id == "") = true <;> simp [h0, hm0]

theorem toggle_not_finished (t : Nat) (s : GameState) :
    (toggleGamePause t s).gameStatus ≠ .finished := by
  unfold toggleGamePause
  dsimp only
  by_cases h : (s.gameStatus == GameStatus.paused) = true <;> simp [h]

/-- Along every reachable state, a `finished` status means every card is matched. -/
theorem reaches_finished_all_matched {s : GameState} (h : Reaches s)
    (hfin : s.gameStatus = .finished) : ∀ c ∈ s.cards, c.isMatched = true := by
  induction h with
  | init gameMode matchType boardSize p1 p2 d1 d2 r now =>
    exact absurd hfin (by
      rw [show (initializeGame gameMode matchType boardSize p1 p2 d1 d2 r now).gameStatus
        = .playing from rfl]
      exact fun hh => GameStatus.noConfusion hh)
  | flip h t i ih => exact handleCardFlip_finished t _ i ih hfin
  | reset h ih => exact reset_finished _ ih hfin
  | hookReset h ih => exact hookReset_finished _ ih hfin
  | pause h t ih => exact absurd hfin (toggle_not_finished t _)

/-- A flip on a non-playing state is a no-op. -/
theorem handleCardFlip_no_op (t : Nat) (s : GameState) (i : Nat)
    (h : s.gameStatus ≠ .playing) : handleCardFlip t s i = s := by
  unfold handleCardFlip
  rw [if_pos]
  by_cases hcf : canFlipCard s i = true
  · obtain ⟨c, hc, hid, hst, -⟩ := (canFlipCard_spec s i).mp hcf
    exact absurd hst h
  · simp [hcf]

/-! ## Second-flip resolution lemmas (claims C3, C4) -/

theorem cardsMatch_flip_irrel (a b : Card) (mt : MatchType) :
    cardsMatch a { b with isFlipped := true } mt = cardsMatch a b mt := by
  cases mt <;> rfl

theorem second_flip_match_spec (s : GameState) (i j t : Nat) (c cj : Card)
    (hfc : s.flippedCards = [c])
    (hi : s.cards.get? i = some c)
    (hcflip : c.isFlipped = true) (hcm : c.isMatched = false)
    (hj : s.cards.get? j = some cj)
    (hjf : cj.isFlipped = false) (hjm : cj.isMatched = false)
    (hst : s.gameStatus = .playing)
    (hnodup : (s.cards.map (·.id)).Nodup)
    (hids : ∀ x ∈ s.cards, x.id ≠ "")
    (hcur : s.currentPlayer ∈ s.players.map (·.id))
    (hmatch : cardsMatch c cj s.matchType = true) :
    ∃ k pk, s.players.findIdx? (fun q => q.id == s.currentPlayer) = some k ∧
      s.players.get? k = some pk ∧
      (∃ ci2, (handleCardFlip t s j).cards.get? i = some ci2 ∧
        ci2.isMatched = true ∧ ci2.isFlipped = true) ∧
      (∃ cj2, (handleCardFlip t s j).cards.get? j = some cj2 ∧
        cj2.isMatched = true ∧ cj2.isFlipped = true) ∧
      (handleCardFlip t s j).players.get? k =
        some { pk with
               score := pk.score + 1,
               «matches» := pk.«matches» ++ [[c, { cj with isFlipped := true }]] } ∧
      (handleCardFlip t s j).matchedPairs =
        s.matchedPairs ++ [[c, { cj with isFlipped := true }]] ∧
      (handleCardFlip t s j).flippedCards = [] ∧
      (handleCardFlip t s j).moveHistory = s.moveHistory ++
        [{ playerId := s.currentPlayer,
           cardIds := [c.id, cj.id], timestamp := t, isMatch := true }] ∧
      (handleCardFlip t s j).currentPlayer = s.currentPlayer := by
  obtain ⟨k, pk, hk, hp, hpid⟩ := findIdx?_player s.players s.currentPlayer hcur
  have hcid : c.id ≠ "" := hids c (List.get?_mem hi)
  have hjid : cj.id ≠ "" := hids cj (List.get?_mem hj)
  have hij : i ≠ j := by
    intro he
    rw [he, hj] at hi
    cases hi
    rw [hjf] at hcflip
    exact Bool.noConfusion hcflip
  have hjlen : j < s.cards.length := lt_of_get?_some hj
  have hcanflip : canFlipCard s j = true := (canFlipCard_spec s j).mpr
    ⟨cj, hj, hjid, hst, hjf, hjm, by rw [hfc]; exact Nat.one_lt_two⟩
  refine ⟨k, pk, hk, hp, ?_⟩
  unfold handleCardFlip
  rw [if_neg (by simp [hcanflip]), hj]
  dsimp only
  rw [if_neg (by simpa using hjid), hfc]
  simp only [List.cons_append, List.nil_append, List.length_cons, List.length_nil]
  rw [if_pos (by rfl)]
  unfold processCardPair
  dsimp only
  rw [if_neg (by simp [hcid, hjid])]
  rw [cardsMatch_flip_irrel c cj s.matchType, hmatch]
  simp only [if_true]
  rw [hk]
  dsimp only
  rw [hp]
  dsimp only
  have hmark : (fun card =>
      if (card.id == "") = true then card
      else if (card.id == c.id || card.id == ({ cj with isFlipped := true } : Card).id) = true then
        { card with isMatched := true, isFlipped := true }
      else card) = markFun c.id cj.id := rfl
  have hidne : c.id ≠ cj.id := by
    intro he
    have := eq_of_nodup_id hnodup hj c (List.get?_mem hi) he
    rw [this, hjf] at hcflip
    exact Bool.noConfusion hcflip
  have hfin_irrel : ∀ (X : GameState),
      (∃ ci2, X.cards.get? i = some ci2 ∧ ci2.isMatched = true ∧ ci2.isFlipped = true) ∧
      (∃ cj2, X.cards.get? j = some cj2 ∧ cj2.isMatched = true ∧ cj2.isFlipped = true) ∧
      X.players.get? k =
        some { pk with
               score := pk.score + 1,
               «matches» := pk.«matches» ++ [[c, { cj with isFlipped := true }]] } ∧
      X.matchedPairs = s.matchedPairs ++ [[c, { cj with isFlipped := true }]] ∧
      X.flippedCards = [] ∧
      X.moveHistory = s.moveHistory ++
        [{ playerId := s.currentPlayer,
           cardIds := [c.id, cj.id], timestamp := t, isMatch := true }] ∧
      X.currentPlayer = s.currentPlayer →
      (∃ ci2, (if isGameFinished X = true then { X with gameStatus := .finished }
          else X).cards.get? i = some ci2 ∧ ci2.isMatched = true ∧ ci2.isFlipped = true) ∧
      (∃ cj2, (if isGameFinished X = true then { X with gameStatus := .finished }
          else X).cards.get? j = some cj2 ∧ cj2.isMatched = true ∧ cj2.isFlipped = true) ∧
      (if isGameFinished X = true then { X with gameStatus := .finished }
          else X).players.get? k =
        some { pk with
               score := pk.score + 1,
               «matches» := pk.«matches» ++ [[c, { cj with isFlipped := true }]] } ∧
      (if isGameFinished X = true then { X with gameStatus := .finished }
          else X).matchedPairs = s.matchedPairs ++ [[c, { cj with isFlipped := true }]] ∧
      (if isGameFinished X = true then { X with gameStatus := .finished }
          else X).flippedCards = [] ∧
      (if isGameFinished X = true then { X with gameStatus := .finished }
          else X).moveHistory = s.moveHistory ++
        [{ playerId := s.currentPlayer,
           cardIds := [c.id, cj.id], timestamp := t, isMatch := true }] ∧
      (if isGameFinished X = true then { X with gameStatus := .finished }
          else X).currentPlayer = s.currentPlayer := by
    intro X hX
    by_cases hfin : isGameFinished X = true
    · rw [if_pos hfin]
      exact hX
    · rw [if_neg hfin]
      exact hX
  apply hfin_irrel
  rw [hmark]
  refine ⟨?_, ?_, ?_, rfl, rfl, rfl, rfl⟩
  · refine ⟨markFun c.id cj.id c, ?_, ?_, ?_⟩
    · rw [get?_map, get?_set_ne _ _ _ _ (Ne.symm hij), hi]
      rfl
    · unfold markFun
      rw [if_neg (by simpa using hcid), if_pos (by simp)]
    · unfold markFun
      rw [if_neg (by simpa using hcid), if_pos (by simp)]
  · refine ⟨markFun c.id cj.id { cj with isFlipped := true }, ?_, ?_, ?_⟩
    · rw [get?_map, get?_set_self _ _ _ hjlen]
      rfl
    · unfold markFun
      rw [if_neg (by simpa using hjid), if_pos (by simp)]
    · unfold markFun
      rw [if_neg (by simpa using hjid), if_pos (by simp)]
  · rw [get?_set_self _ _ _ (lt_of_get?_some hp)]

theorem second_flip_mismatch_spec (s : GameState) (i j t : Nat) (c cj : Card)
    (hfc : s.flippedCards = [c])
    (hi : s.cards.get? i = some c)
    (hcflip : c.isFlipped = true) (hcm : c.isMatched = false)
    (hj : s.cards.get? j = some cj)
    (hjf : cj.isFlipped = false) (hjm : cj.isMatched = false)
    (hst : s.gameStatus = .playing)
    (hids : ∀ x ∈ s.cards, x.id ≠ "")
    (hmatch : cardsMatch c cj s.matchType = false) :
    (∃ ci2, (handleCardFlip t s j).cards.get? i = some ci2 ∧ ci2.isFlipped = true ∧
      ci2.isMatched = false) ∧
    (handleCardFlip t s j).cards.get? j = some { cj with isFlipped := true } ∧
    (handleCardFlip t s j).flippedCards = [c, { cj with isFlipped := true }] ∧
    (handleCardFlip t s j).moveHistory = s.moveHistory ++
      [{ playerId := s.currentPlayer,
         cardIds := [c.id, cj.id], timestamp := t, isMatch := false }] ∧
    (s.gameMode ≠ .aiVsAi →
      ∀ k, s.players.findIdx? (fun q => q.id == s.currentPlayer) = some k →
        ∃ p2, s.players.get? ((k + 1) % s.players.length) = some p2 ∧
          (handleCardFlip t s j).currentPlayer = p2.id) ∧
    (s.gameMode = .aiVsAi → (handleCardFlip t s j).currentPlayer = s.currentPlayer ∧
      (hookMismatchReset (handleCardFlip t s j)).currentPlayer =
        (if s.currentPlayer == "ai1" then "ai2" else "ai1")) := by
  have hcid : c.id ≠ "" := hids c (List.get?_mem hi)
  have hjid : cj.id ≠ "" := hids cj (List.get?_mem hj)
  have hij : i ≠ j := by
    intro he
    rw [he, hj] at hi
    cases hi
    rw [hjf] at hcflip
    exact Bool.noConfusion hcflip
  have hjlen : j < s.cards.length := lt_of_get?_some hj
  have hcanflip : canFlipCard s j = true := (canFlipCard_spec s j).mpr
    ⟨cj, hj, hjid, hst, hjf, hjm, by rw [hfc]; exact Nat.one_lt_two⟩
  unfold handleCardFlip
  rw [if_neg (by simp [hcanflip]), hj]
  dsimp only
  rw [if_neg (by simpa using hjid), hfc]
  simp only [List.cons_append, List.nil_append, List.length_cons, List.length_nil]
  rw [if_pos (by rfl)]
  unfold processCardPair
  dsimp only
  rw [if_neg (by simp [hcid, hjid])]
  rw [cardsMatch_flip_irrel c cj s.matchType, hmatch]
  simp only [Bool.false_eq_true, if_false]
  rw [if_neg (by
    intro hfin
    unfold isGameFinished at hfin
    rw [List.all_eq_true] at hfin
    have hmem : ({ cj with isFlipped := true } : Card) ∈
        s.cards.set j { cj with isFlipped := true } :=
      List.get?_mem (get?_set_self _ _ _ hjlen)
    have := hfin _ hmem
    rw [show ({ cj with isFlipped := true } : Card).isMatched = cj.isMatched from rfl, hjm]
      at this
    exact Bool.noConfusion this)]
  refine ⟨⟨c, ?_, hcflip, hcm⟩, get?_set_self _ _ _ hjlen, rfl, rfl, ?_, ?_⟩
  · rw [get?_set_ne _ _ _ _ (Ne.symm hij), hi]
  · intro hmode k hk
    rw [if_neg (by simpa using hmode)]
    dsimp only
    unfold getNextPlayer
    rw [hk]
    dsimp only
    have hklen : k < s.players.length := by
      obtain ⟨-, a, ha, -⟩ := findIdx?_some_spec _ s.players 0 k hk
      simp only [Nat.sub_zero] at ha
      exact lt_of_get?_some ha
    have hmod : (k + 1) % s.players.length < s.players.length :=
      Nat.mod_lt _ (by omega)
    obtain ⟨p2, hp2⟩ := get?_some_of_lt s.players _ hmod
    rw [hp2]
    exact ⟨p2, rfl, rfl⟩
  · intro hmode
    rw [if_pos (by simp [hmode])]
    refine ⟨rfl, ?_⟩
    unfold hookMismatchReset
    dsimp only
    rw [if_pos (by simp [hmode])]

/-! ## AI move legality (claims C1, C10) -/

theorem isValidMoveStrict_spec {cards : List Card} {m : Nat × Nat}
    (h : isValidMoveStrict cards m = true) :
    m.1 ≠ m.2 ∧ m.1 < cards.length ∧ m.2 < cards.length ∧
    (∃ c, cards.get? m.1 = some c ∧ c.isFlipped = false ∧ c.isMatched = false) ∧
    (∃ c, cards.get? m.2 = some c ∧ c.isFlipped = false ∧ c.isMatched = false) := by
  unfold isValidMoveStrict at h
  cases h1 : cards.get? m.1 with
  | none => rw [h1] at h; simp at h
  | some c1 =>
    cases h2 : cards.get? m.2 with
    | none => rw [h1, h2] at h; simp at h
    | some c2 =>
      rw [h1, h2] at h
      simp only [Bool.and_eq_true, bne_iff_ne, Bool.not_eq_true', decide_eq_true_eq] at h
      refine ⟨?_, ?_, ?_, ⟨c1, rfl, ?_, ?_⟩, ⟨c2, rfl, ?_, ?_⟩⟩ <;> tauto

theorem validateAndCorrectMove_legal (cards : List Card) (m : Nat × Nat)
    (h2 : 2 ≤ (findStrictlyAvailableCards cards).length) :
    (validateAndCorrectMove cards m (findStrictlyAvailableCards cards)).1 ≠
      (validateAndCorrectMove cards m (findStrictlyAvailableCards cards)).2 ∧
    (validateAndCorrectMove cards m (findStrictlyAvailableCards cards)).1 < cards.length ∧
    (validateAndCorrectMove cards m (findStrictlyAvailableCards cards)).2 < cards.length ∧
    (∃ c, cards.get? (validateAndCorrectMove cards m (findStrictlyAvailableCards cards)).1
      = some c ∧ c.isFlipped = false ∧ c.isMatched = false) ∧
    (∃ c, cards.get? (validateAndCorrectMove cards m (findStrictlyAvailableCards cards)).2
      = some c ∧ c.isFlipped = false ∧ c.isMatched = false) := by
  rcases havail : findStrictlyAvailableCards cards with - | ⟨a, - | ⟨b, rest⟩⟩
  · rw [havail] at h2; simp at h2
  · rw [havail] at h2; simp at h2
  have hmema : a ∈ findStrictlyAvailableCards cards := by rw [havail]; simp
  have hmemb : b ∈ findStrictlyAvailableCards cards := by rw [havail]; simp
  obtain ⟨hba, ca, hca, hcaf, hcam⟩ := legal_of_avail_mem hmema
  obtain ⟨hbb, cb, hcb, hcbf, hcbm⟩ := legal_of_avail_mem hmemb
  have hab : a < b := by
    have hs := fsaAux_sorted cards 0
    unfold findStrictlyAvailableCards at havail
    rw [havail] at hs
    exact (List.pairwise_cons.mp hs).1 b (by simp)
  have hfirst : a ≠ b ∧ a < cards.length ∧ b < cards.length ∧
      (∃ c, cards.get? a = some c ∧ c.isFlipped = false ∧ c.isMatched = false) ∧
      (∃ c, cards.get? b = some c ∧ c.isFlipped = false ∧ c.isMatched = false) :=
    ⟨Nat.ne_of_lt hab, hba, hbb, ⟨ca, hca, hcaf, hcam⟩, ⟨cb, hcb, hcbf, hcbm⟩⟩
  unfold validateAndCorrectMove
  by_cases hmat : (matchedAt cards m.1 || matchedAt cards m.2) = true
  · rw [if_pos hmat]
    exact hfirst
  · rw [if_neg hmat]
    by_cases hvalid : isValidMoveStrict cards m = true
    · rw [if_pos hvalid]
      exact isValidMoveStrict_spec hvalid
    · rw [if_neg hvalid]
      exact hfirst

theorem forceEmergencyMove_spec (cards : List Card) (hlen : 2 ≤ cards.length) :
    (forceEmergencyMove cards).1 ≠ (forceEmergencyMove cards).2 ∧
    (forceEmergencyMove cards).1 < cards.length ∧
    (forceEmergencyMove cards).2 < cards.length := by
  unfold forceEmergencyMove
  have hminr : 1 ⊓ (cards.length - 1) = 1 := min_eq_left (by omega)
  rcases hfil : (List.range cards.length).filter (fun i =>
      match cards.get? i with
      | some c => c.id != ""
      | none => false) with - | ⟨a, - | ⟨b, rest⟩⟩
  · dsimp only
    rw [hminr]
    refine ⟨by omega, by omega, by omega⟩
  · dsimp only
    rw [hminr]
    refine ⟨by omega, by omega, by omega⟩
  · have hmema : a ∈ (List.range cards.length).filter (fun i =>
        match cards.get? i with
        | some c => c.id != ""
        | none => false) := by rw [hfil]; simp
    have hmemb : b ∈ (List.range cards.length).filter (fun i =>
        match cards.get? i with
        | some c => c.id != ""
        | none => false) := by rw [hfil]; simp
    have hra : a < cards.length := List.mem_range.mp (List.mem_of_mem_filter hmema)
    have hrb : b < cards.length := List.mem_range.mp (List.mem_of_mem_filter hmemb)
    have hs := (List.pairwise_lt_range cards.length).filter (fun i =>
      match cards.get? i with
      | some c => c.id != ""
      | none => false)
    rw [hfil] at hs
    have hab : a < b := (List.pairwise_cons.mp hs).1 b (by simp)
    exact ⟨Nat.ne_of_lt hab, hra, hrb⟩

theorem countP_avail_eq (cards : List Card) (hids : ∀ c ∈ cards, c.id ≠ "") :
    (findStrictlyAvailableCards cards).length =
      cards.countP (fun c => !c.isFlipped && !c.isMatched) := by
  unfold findStrictlyAvailableCards
  rw [fsaAux_length]
  apply List.countP_congr
  intro c hc
  unfold strictlyAvailable
  have := hids c hc
  simp [this]

theorem makeMove_legal_aux (memory : AIMemory) (cards : List Card) (mt : MatchType)
    (moves : List Move) (r : Rnd)
    (hids : ∀ c ∈ cards, c.id ≠ "")
    (h2 : 2 ≤ cards.countP (fun c => !c.isFlipped && !c.isMatched)) :
    (makeMove memory cards mt moves r).1.1 ≠ (makeMove memory cards mt moves r).1.2 ∧
    (makeMove memory cards mt moves r).1.1 < cards.length ∧
    (makeMove memory cards mt moves r).1.2 < cards.length ∧
    (∃ c, cards.get? (makeMove memory cards mt moves r).1.1 = some c ∧
      c.isFlipped = false ∧ c.isMatched = false) ∧
    (∃ c, cards.get? (makeMove memory cards mt moves r).1.2 = some c ∧
      c.isFlipped = false ∧ c.isMatched = false) := by
  have hlen2 : 2 ≤ cards.length :=
    le_trans h2 (List.countP_le_length _)
  have havail : 2 ≤ (findStrictlyAvailableCards cards).length := by
    rw [countP_avail_eq cards hids]
    exact h2
  unfold makeMove
  rw [if_neg (by simp only [beq_iff_eq]; omega)]
  rw [if_neg (Nat.not_lt.mpr havail)]
  dsimp only
  exact validateAndCorrectMove_legal cards _ havail

theorem makeMove_emergency_aux (memory : AIMemory) (cards : List Card) (mt : MatchType)
    (moves : List Move) (r : Rnd)
    (hlen : 2 ≤ cards.length)
    (hlt : cards.countP (fun c => !c.isFlipped && !c.isMatched) < 2) :
    (makeMove memory cards mt moves r).1 = forceEmergencyMove cards ∧
    (makeMove memory cards mt moves r).1.1 ≠ (makeMove memory cards mt moves r).1.2 ∧
    (makeMove memory cards mt moves r).1.1 < cards.length ∧
    (makeMove memory cards mt moves r).1.2 < cards.length := by
  have havail : (findStrictlyAvailableCards cards).length < 2 := by
    have hle : (findStrictlyAvailableCards cards).length ≤
        cards.countP (fun c => !c.isFlipped && !c.isMatched) := by
      unfold findStrictlyAvailableCards
      rw [fsaAux_length]
      apply List.countP_mono_left
      intro c _ hc
      unfold strictlyAvailable at hc
      simp only [Bool.and_eq_true] at hc
      simp [hc.1.2, hc.2]
    omega
  have hfem := forceEmergencyMove_spec cards hlen
  unfold makeMove
  rw [if_neg (by simp only [beq_iff_eq]; omega)]
  rw [if_pos havail]
  exact ⟨rfl, hfem.1, hfem.2.1, hfem.2.2⟩

/-! ## Deck pairing (claim C8) -/

theorem randPick_mem {α : Type} (l : List α) (d : α) (r : Rnd) (h : l ≠ []) :
    (randPick l d r).1 ∈ l := by
  unfold randPick
  match l, h with
  | x :: t, _ =>
    dsimp only [Rnd.takeNat]
    have hlt : (r.nats.headD 0) % (x :: t).length < (x :: t).length :=
      Nat.mod_lt _ (by simp)
    rw [List.getD_eq_getElem _ _ hlt]
    exact List.getElem_mem _

theorem generateMatchingCard_spec (base : ProtoCard) (mt : MatchType) (r : Rnd)
    (hcol : base.color = getCardColor base.suit) :
    cardsMatchProto base ((generateMatchingCard base mt r).1) mt = true ∧
    (mt = .color → (generateMatchingCard base mt r).1.color = base.color ∧
      (generateMatchingCard base mt r).1.suit ≠ base.suit) ∧
    (mt = .rank → (generateMatchingCard base mt r).1.rank = base.rank ∧
      (generateMatchingCard base mt r).1.suit ≠ base.suit) ∧
    (mt = .suit → (generateMatchingCard base mt r).1.suit = base.suit ∧
      (generateMatchingCard base mt r).1.rank ≠ base.rank) := by
  cases mt with
  | color =>
    unfold generateMatchingCard
    dsimp only
    have hne : suitList.filter
        (fun s => getCardColor s == base.color && s != base.suit) ≠ [] := by
      rw [hcol]
      generalize base.suit = bs
      cases bs <;> decide
    have hmem := randPick_mem _ base.suit r hne
    have hprop := List.of_mem_filter hmem
    simp only [Bool.and_eq_true, beq_iff_eq, bne_iff_ne] at hprop
    unfold cardsMatchProto
    refine ⟨by simp, fun _ => ⟨rfl, hprop.2⟩, by simp, by simp⟩
  | rank =>
    unfold generateMatchingCard
    dsimp only
    have hne : suitList.filter (fun s => s != base.suit) ≠ [] := by
      generalize base.suit = bs
      cases bs <;> decide
    have hmem := randPick_mem _ (suitList.getD 0 .hearts) r hne
    have hprop := List.of_mem_filter hmem
    simp only [bne_iff_ne] at hprop
    unfold cardsMatchProto
    refine ⟨by simp, by simp, fun _ => ⟨rfl, hprop⟩, by simp⟩
  | suit =>
    unfold generateMatchingCard
    dsimp only
    have hne : rankList.filter (fun rk => rk != base.rank) ≠ [] := by
      generalize base.rank = br
      cases br <;> decide
    have hmem := randPick_mem _ (rankList.getD 0 .A) r hne
    have hprop := List.of_mem_filter hmem
    simp only [bne_iff_ne] at hprop
    unfold cardsMatchProto
    refine ⟨by simp, by simp, by simp, fun _ => ⟨rfl, hprop⟩⟩

theorem genPairsAux_pair (mt : MatchType) :
    ∀ (n i : Nat) (r : Rnd) (k : Nat), k < n →
      ∃ c1 c2, (genPairsAux mt n i r).1.get? (2 * k) = some c1 ∧
        (genPairsAux mt n i r).1.get? (2 * k + 1) = some c2 ∧
        cardsMatch c1 c2 mt = true ∧
        (mt = .color → c1.color = c2.color ∧ c1.suit ≠ c2.suit) ∧
        (mt = .rank → c1.rank = c2.rank ∧ c1.suit ≠ c2.suit) ∧
        (mt = .suit → c1.suit = c2.suit ∧ c1.rank ≠ c2.rank)
  | 0, i, r, k, h => absurd h (Nat.not_lt_zero k)
  | n + 1, i, r, 0, h => by
    have hspec := generateMatchingCard_spec (generateBaseCard i mt) mt r rfl
    unfold genPairsAux
    refine ⟨_, _, by rfl, by rfl, ?_, ?_, ?_, ?_⟩
    · cases mt <;> exact hspec.1
    · intro hmt
      obtain ⟨h1, h2⟩ := hspec.2.1 hmt
      exact ⟨h1.symm, fun he => h2 he.symm⟩
    · intro hmt
      obtain ⟨h1, h2⟩ := hspec.2.2.1 hmt
      exact ⟨h1.symm, fun he => h2 he.symm⟩
    · intro hmt
      obtain ⟨h1, h2⟩ := hspec.2.2.2 hmt
      exact ⟨h1.symm, fun he => h2 he.symm⟩
  | n + 1, i, r, k + 1, h => by
    obtain ⟨c1, c2, hg1, hg2, hrest⟩ := genPairsAux_pair mt n (i + 1)
      (generateMatchingCard (generateBaseCard i mt) mt r).2 k (by omega)
    unfold genPairsAux
    refine ⟨c1, c2, ?_, ?_, hrest⟩
    · have harith : 2 * (k + 1) = (2 * k + 1) + 1 := by omega
      rw [harith]
      simpa [List.get?] using hg1
    · have harith : 2 * (k + 1) + 1 = ((2 * k + 1) + 1) + 1 := by omega
      rw [harith]
      simpa [List.get?] using hg2

/-! ## Hint query (claim C9) -/

theorem findHintPair_none_spec (mt : MatchType) :
    ∀ (l : List Card), findHintPair mt l = none →
      ∀ (i j : Nat) (ci cj : Card), i < j → l.get? i = some ci → l.get? j = some cj →
        cardsMatch ci cj mt = false
  | [], _, i, j, ci, cj, hij, hi, hj => by simp [List.get?_eq_getElem?] at hi
  | c :: rest, h, i, j, ci, cj, hij, hi, hj => by
    unfold findHintPair at h
    cases hfind : rest.find? (fun d => cardsMatch c d mt) with
    | some d => rw [hfind] at h; exact Option.noConfusion h
    | none =>
      rw [hfind] at h
      match i, j, hij with
      | 0, jj + 1, _ =>
        simp only [List.get?] at hi hj
        cases hi
        have hcjmem : cj ∈ rest := List.get?_mem hj
        have := List.find?_eq_none.mp hfind cj hcjmem
        simpa using this
      | ii + 1, jj + 1, hij2 =>
        simp only [List.get?] at hi hj
        exact findHintPair_none_spec mt rest h ii jj ci cj (by omega) hi hj

theorem findHintPair_some_spec (mt : MatchType) :
    ∀ (l : List Card) (p q : Nat), findHintPair mt l = some (p, q) →
      ∃ (i j : Nat) (ci cj : Card), i < j ∧ l.get? i = some ci ∧ l.get? j = some cj ∧
        cardsMatch ci cj mt = true ∧ p = ci.position ∧ q = cj.position
  | [], p, q, h => by simp [findHintPair] at h
  | c :: rest, p, q, h => by
    unfold findHintPair at h
    cases hfind : rest.find? (fun d => cardsMatch c d mt) with
    | some d =>
      rw [hfind] at h
      have hd := List.find?_some hfind
      have hdmem := List.mem_of_find?_eq_some hfind
      obtain ⟨jd, hjd⟩ := mem_get? hdmem
      cases h
      exact ⟨0, jd + 1, c, d, by omega, by simp [List.get?], by simpa [List.get?] using hjd,
        hd, rfl, rfl⟩
    | none =>
      rw [hfind] at h
      obtain ⟨i, j, ci, cj, hij, hi, hj, hm, hp, hq⟩ :=
        findHintPair_some_spec mt rest p q h
      exact ⟨i + 1, j + 1, ci, cj, by omega, by simpa [List.get?] using hi,
        by simpa [List.get?] using hj, hm, hp, hq⟩

theorem reaches_foldl (l : List Nat) (s : GameState) (h : Reaches s) :
    Reaches (l.foldl (fun st i => handleCardFlip 0 st i) s) := by
  induction l generalizing s with
  | nil => exact h
  | cons x tl ih => exact ih _ (h.flip 0 x)

/-! ## Matched-card immutability helpers (claim C7) -/

theorem if_status_cards (P : Prop) [Decidable P] (X Y : GameState)
    (hcards : Y.cards = X.cards) : (if P then Y else X).cards = X.cards := by
  by_cases h : P <;> simp [h, hcards]

theorem markFun_preserves (id1 id2 : String) (c : Card) (hm : c.isMatched = true)
    (hf : c.isFlipped = true) :
    (markFun id1 id2 c).isMatched = true ∧ (markFun id1 id2 c).isFlipped = true := by
  unfold markFun
  by_cases h0 : (c.id == "") = true
  · simp [h0, hm, hf]
  · by_cases h1 : (c.id == id1 || c.id == id2) = true <;> simp [h0, h1, hm, hf]

theorem processCardPair_preserves_matched (t : Nat) (s1 : GameState) (k : Nat) (c : Card)
    (hk : s1.cards.get? k = some c) (hm : c.isMatched = true) (hf : c.isFlipped = true) :
    ∃ c2, (processCardPair t s1).cards.get? k = some c2 ∧
      c2.isMatched = true ∧ c2.isFlipped = true := by
  unfold processCardPair
  rcases hfc : s1.flippedCards with - | ⟨card1, - | ⟨card2, - | ⟨c3, rest⟩⟩⟩
  · exact ⟨c, hk, hm, hf⟩
  · exact ⟨c, hk, hm, hf⟩
  case cons.cons.cons => exact ⟨c, hk, hm, hf⟩
  case cons.cons.nil =>
    dsimp only
    by_cases hid : (card1.id == "" || card2.id == "") = true
    · rw [if_pos hid]
      exact ⟨c, hk, hm, hf⟩
    rw [if_neg hid]
    rw [if_status_cards _ _ _ (by rfl)]
    by_cases hmatch : cardsMatch card1 card2 s1.matchType = true
    · simp only [hmatch, if_true]
      have hconv : (fun card =>
          if (card.id == "") = true then card
          else if (card.id == card1.id || card.id == card2.id) = true then
            { card with isMatched := true, isFlipped := true }
          else card) = markFun card1.id card2.id := rfl
      rw [hconv, get?_map, hk]
      obtain ⟨h1, h2⟩ := markFun_preserves card1.id card2.id c hm hf
      exact ⟨markFun card1.id card2.id c, rfl, h1, h2⟩
    · simp only [hmatch, Bool.false_eq_true, if_false]
      exact ⟨c, hk, hm, hf⟩

/-! ## Claim theorems -/

/-- C1 (amended): for every cards array in which every card has a nonempty id and at
least 2 cards are available (neither flipped nor matched), `AIPlayer.makeMove` returns a
pair of indices that are distinct, in bounds, and both refer to available cards — for any
memory state, opponent move history, and randomness. -/
theorem makeMove_returns_available_pair (memory : AIMemory) (cards : List Card)
    (mt : MatchType) (moves : List Move) (r : Rnd)
    (hids : ∀ c ∈ cards, c.id ≠ "")
    (h2 : 2 ≤ cards.countP (fun c => !c.isFlipped && !c.isMatched)) :
    (makeMove memory cards mt moves r).1.1 ≠ (makeMove memory cards mt moves r).1.2 ∧
    (makeMove memory cards mt moves r).1.1 < cards.length ∧
    (makeMove memory cards mt moves r).1.2 < cards.length ∧
    (∃ c, cards.get? (makeMove memory cards mt moves r).1.1 = some c ∧
      c.isFlipped = false ∧ c.isMatched = false) ∧
    (∃ c, cards.get? (makeMove memory cards mt moves r).1.2 = some c ∧
      c.isFlipped = false ∧ c.isMatched = false) :=
  makeMove_legal_aux memory cards mt moves r hids h2

/-- Witness for C1: on a two-card board with both cards available, the move of the AI is the
distinct in-bounds pair of available indices. -/
theorem makeMove_returns_available_pair_witness :
    (∀ c ∈ [cardAvailRed, cardAvailBlack], c.id ≠ "") ∧
    2 ≤ [cardAvailRed, cardAvailBlack].countP (fun c => !c.isFlipped && !c.isMatched) ∧
    ((makeMove emptyMemory [cardAvailRed, cardAvailBlack] .color [] emptyRnd).1.1 ≠
      (makeMove emptyMemory [cardAvailRed, cardAvailBlack] .color [] emptyRnd).1.2 ∧
    (makeMove emptyMemory [cardAvailRed, cardAvailBlack] .color [] emptyRnd).1.1 <
      [cardAvailRed, cardAvailBlack].length ∧
    (makeMove emptyMemory [cardAvailRed, cardAvailBlack] .color [] emptyRnd).1.2 <
      [cardAvailRed, cardAvailBlack].length ∧
    (∃ c, [cardAvailRed, cardAvailBlack].get?
        (makeMove emptyMemory [cardAvailRed, cardAvailBlack] .color [] emptyRnd).1.1
      = some c ∧ c.isFlipped = false ∧ c.isMatched = false) ∧
    (∃ c, [cardAvailRed, cardAvailBlack].get?
        (makeMove emptyMemory [cardAvailRed, cardAvailBlack] .color [] emptyRnd).1.2
      = some c ∧ c.isFlipped = false ∧ c.isMatched = false)) :=
  ⟨by decide, by decide,
    makeMove_returns_available_pair emptyMemory [cardAvailRed, cardAvailBlack] .color []
      emptyRnd (by decide) (by decide)⟩

/-- Counterexample for C1 as stated: a board with two available cards (both carrying the
JS-falsy empty-string id) plus a matched and a flipped card.  `makeMove` returns `(0, 1)`,
pointing at the matched and the flipped card. -/
theorem makeMove_empty_id_cex :
    cardsEmptyIdBoard.countP (fun c => !c.isFlipped && !c.isMatched) = 2 ∧
    (makeMove emptyMemory cardsEmptyIdBoard .color [] emptyRnd).1 = (0, 1) ∧
    (cardsEmptyIdBoard.get? 0).map (·.isMatched) = some true ∧
    (cardsEmptyIdBoard.get? 1).map (·.isFlipped) = some true := by
  decide

/-- C2 (amended): `handleCardFlip` returns its input unchanged whenever `canFlipCard` is
false, and `canFlipCard(state, index)` is true iff the game is `playing`, the index is in
bounds, the card there is neither flipped nor matched **and has a nonempty id**, and fewer
than 2 cards are flipped. -/
theorem canFlip_noop_and_iff :
    (∀ (s : GameState) (i t : Nat), canFlipCard s i = false → handleCardFlip t s i = s) ∧
    (∀ (s : GameState) (i : Nat), canFlipCard s i = true ↔
      (s.gameStatus = .playing ∧ i < s.cards.length ∧
       (∃ c, s.cards.get? i = some c ∧ c.isFlipped = false ∧ c.isMatched = false ∧
         c.id ≠ "") ∧
       s.flippedCards.length < 2)) := by
  constructor
  · intro s i t h
    unfold handleCardFlip
    rw [if_pos (by simp [h])]
  · intro s i
    rw [canFlipCard_spec s i]
    constructor
    · rintro ⟨c, hc, hid, hst, hf, hm, hlen⟩
      exact ⟨hst, lt_of_get?_some hc, ⟨c, hc, hf, hm, hid⟩, hlen⟩
    · rintro ⟨hst, hlen, ⟨c, hc, hf, hm, hid⟩, hflen⟩
      exact ⟨c, hc, hid, hst, hf, hm, hflen⟩

/-- Witness for C2: a rejected flip (out-of-bounds index) leaves the state unchanged, and
the `canFlipCard` characterization holds at a concrete state and index. -/
theorem canFlip_noop_and_iff_witness :
    handleCardFlip 0 stateOneFlipMatch 7 = stateOneFlipMatch ∧
    (canFlipCard stateOneFlipMatch 1 = true ↔
      (stateOneFlipMatch.gameStatus = .playing ∧ 1 < stateOneFlipMatch.cards.length ∧
       (∃ c, stateOneFlipMatch.cards.get? 1 = some c ∧ c.isFlipped = false ∧
         c.isMatched = false ∧ c.id ≠ "") ∧
       stateOneFlipMatch.flippedCards.length < 2)) :=
  ⟨canFlip_noop_and_iff.1 stateOneFlipMatch 7 0 (by decide),
   canFlip_noop_and_iff.2 stateOneFlipMatch 1⟩

/-- Counterexample for C2 as stated: a playing state whose card 0 is available (neither
flipped nor matched), in bounds, with no flipped cards — yet `canFlipCard` is false,
because the id of the card is the empty string. -/
theorem canFlip_empty_id_cex :
    canFlipCard stateEmptyId 0 = false ∧
    stateEmptyId.gameStatus = .playing ∧
    0 < stateEmptyId.cards.length ∧
    (stateEmptyId.cards.get? 0).map (fun c => !c.isFlipped && !c.isMatched) = some true ∧
    stateEmptyId.flippedCards.length < 2 := by
  decide

/-- C3: from a playing state with exactly one (face-up, unmatched) card in
`flippedCards`, flipping a second available card that matches it marks both cards
matched-and-flipped, increments the score of the current player by one, appends the pair to
the matches of that player and to `matchedPairs`, clears `flippedCards`, logs a `Move` with
`isMatch = true`, and leaves `currentPlayer` unchanged. -/
theorem second_flip_match (s : GameState) (i j t : Nat) (c cj : Card)
    (hfc : s.flippedCards = [c])
    (hi : s.cards.get? i = some c)
    (hcflip : c.isFlipped = true) (hcm : c.isMatched = false)
    (hj : s.cards.get? j = some cj)
    (hjf : cj.isFlipped = false) (hjm : cj.isMatched = false)
    (hst : s.gameStatus = .playing)
    (hnodup : (s.cards.map (·.id)).Nodup)
    (hids : ∀ x ∈ s.cards, x.id ≠ "")
    (hcur : s.currentPlayer ∈ s.players.map (·.id))
    (hmatch : cardsMatch c cj s.matchType = true) :
    ∃ k pk, s.players.findIdx? (fun q => q.id == s.currentPlayer) = some k ∧
      s.players.get? k = some pk ∧
      (∃ ci2, (handleCardFlip t s j).cards.get? i = some ci2 ∧
        ci2.isMatched = true ∧ ci2.isFlipped = true) ∧
      (∃ cj2, (handleCardFlip t s j).cards.get? j = some cj2 ∧
        cj2.isMatched = true ∧ cj2.isFlipped = true) ∧
      (handleCardFlip t s j).players.get? k =
        some { pk with
               score := pk.score + 1,
               «matches» := pk.«matches» ++ [[c, { cj with isFlipped := true }]] } ∧
      (handleCardFlip t s j).matchedPairs =
        s.matchedPairs ++ [[c, { cj with isFlipped := true }]] ∧
      (handleCardFlip t s j).flippedCards = [] ∧
      (handleCardFlip t s j).moveHistory = s.moveHistory ++
        [{ playerId := s.currentPlayer,
           cardIds := [c.id, cj.id], timestamp := t, isMatch := true }] ∧
      (handleCardFlip t s j).currentPlayer = s.currentPlayer :=
  second_flip_match_spec s i j t c cj hfc hi hcflip hcm hj hjf hjm hst hnodup hids hcur
    hmatch

/-- Witness for C3 at a concrete two-card board: flipping the matching partner produces
the matched pair, score 1, empty flip buffer, and an unchanged current player. -/
theorem second_flip_match_witness :
    ∃ k pk, stateOneFlipMatch.players.findIdx?
        (fun q => q.id == stateOneFlipMatch.currentPlayer) = some k ∧
      stateOneFlipMatch.players.get? k = some pk ∧
      (∃ ci2, (handleCardFlip 9 stateOneFlipMatch 1).cards.get? 0 = some ci2 ∧
        ci2.isMatched = true ∧ ci2.isFlipped = true) ∧
      (∃ cj2, (handleCardFlip 9 stateOneFlipMatch 1).cards.get? 1 = some cj2 ∧
        cj2.isMatched = true ∧ cj2.isFlipped = true) ∧
      (handleCardFlip 9 stateOneFlipMatch 1).players.get? k =
        some { pk with
               score := pk.score + 1,
               «matches» := pk.«matches» ++
                 [[cardFlippedRed, { cardAvailRed with isFlipped := true }]] } ∧
      (handleCardFlip 9 stateOneFlipMatch 1).matchedPairs =
        stateOneFlipMatch.matchedPairs ++
          [[cardFlippedRed, { cardAvailRed with isFlipped := true }]] ∧
      (handleCardFlip 9 stateOneFlipMatch 1).flippedCards = [] ∧
      (handleCardFlip 9 stateOneFlipMatch 1).moveHistory =
        stateOneFlipMatch.moveHistory ++
        [{ playerId := stateOneFlipMatch.currentPlayer,
           cardIds := [cardFlippedRed.id, cardAvailRed.id], timestamp := 9,
           isMatch := true }] ∧
      (handleCardFlip 9 stateOneFlipMatch 1).currentPlayer =
        stateOneFlipMatch.currentPlayer :=
  second_flip_match stateOneFlipMatch 0 1 9 cardFlippedRed cardAvailRed
    (by decide) (by decide) (by decide) (by decide) (by decide) (by decide) (by decide)
    (by decide) (by decide) (by decide) (by decide) (by decide)

/-- C4: from a playing state with exactly one (face-up, unmatched) card in
`flippedCards`, flipping a second available card that does not match it keeps both cards
face up, keeps both in `flippedCards`, logs a `Move` with `isMatch = false`, and advances
`currentPlayer` round-robin — except in ai-vs-ai mode, where `currentPlayer` is unchanged
and the ai1↔ai2 switch happens at the explicit mismatch-reset mapping. -/
theorem second_flip_mismatch (s : GameState) (i j t : Nat) (c cj : Card)
    (hfc : s.flippedCards = [c])
    (hi : s.cards.get? i = some c)
    (hcflip : c.isFlipped = true) (hcm : c.isMatched = false)
    (hj : s.cards.get? j = some cj)
    (hjf : cj.isFlipped = false) (hjm : cj.isMatched = false)
    (hst : s.gameStatus = .playing)
    (hids : ∀ x ∈ s.cards, x.id ≠ "")
    (hmatch : cardsMatch c cj s.matchType = false) :
    (∃ ci2, (handleCardFlip t s j).cards.get? i = some ci2 ∧ ci2.isFlipped = true ∧
      ci2.isMatched = false) ∧
    (handleCardFlip t s j).cards.get? j = some { cj with isFlipped := true } ∧
    (handleCardFlip t s j).flippedCards = [c, { cj with isFlipped := true }] ∧
    (handleCardFlip t s j).moveHistory = s.moveHistory ++
      [{ playerId := s.currentPlayer,
         cardIds := [c.id, cj.id], timestamp := t, isMatch := false }] ∧
    (s.gameMode ≠ .aiVsAi →
      ∀ k, s.players.findIdx? (fun q => q.id == s.currentPlayer) = some k →
        ∃ p2, s.players.get? ((k + 1) % s.players.length) = some p2 ∧
          (handleCardFlip t s j).currentPlayer = p2.id) ∧
    (s.gameMode = .aiVsAi → (handleCardFlip t s j).currentPlayer = s.currentPlayer ∧
      (hookMismatchReset (handleCardFlip t s j)).currentPlayer =
        (if s.currentPlayer == "ai1" then "ai2" else "ai1")) :=
  second_flip_mismatch_spec s i j t c cj hfc hi hcflip hcm hj hjf hjm hst hids hmatch

/-- Witness for C4 at a concrete two-card board with a red and a black card. -/
theorem second_flip_mismatch_witness :
    (∃ ci2, (handleCardFlip 9 stateOneFlipMismatch 1).cards.get? 0 = some ci2 ∧
      ci2.isFlipped = true ∧ ci2.isMatched = false) ∧
    (handleCardFlip 9 stateOneFlipMismatch 1).cards.get? 1 =
      some { cardAvailBlack with isFlipped := true } ∧
    (handleCardFlip 9 stateOneFlipMismatch 1).flippedCards =
      [cardFlippedRed, { cardAvailBlack with isFlipped := true }] ∧
    (handleCardFlip 9 stateOneFlipMismatch 1).moveHistory =
      stateOneFlipMismatch.moveHistory ++
      [{ playerId := stateOneFlipMismatch.currentPlayer,
         cardIds := [cardFlippedRed.id, cardAvailBlack.id], timestamp := 9,
         isMatch := false }] ∧
    (stateOneFlipMismatch.gameMode ≠ .aiVsAi →
      ∀ k, stateOneFlipMismatch.players.findIdx?
          (fun q => q.id == stateOneFlipMismatch.currentPlayer) = some k →
        ∃ p2, stateOneFlipMismatch.players.get?
            ((k + 1) % stateOneFlipMismatch.players.length) = some p2 ∧
          (handleCardFlip 9 stateOneFlipMismatch 1).currentPlayer = p2.id) ∧
    (stateOneFlipMismatch.gameMode = .aiVsAi →
      (handleCardFlip 9 stateOneFlipMismatch 1).currentPlayer =
        stateOneFlipMismatch.currentPlayer ∧
      (hookMismatchReset (handleCardFlip 9 stateOneFlipMismatch 1)).currentPlayer =
        (if stateOneFlipMismatch.currentPlayer == "ai1" then "ai2" else "ai1")) :=
  second_flip_mismatch stateOneFlipMismatch 0 1 9 cardFlippedRed cardAvailBlack
    (by decide) (by decide) (by decide) (by decide) (by decide) (by decide) (by decide)
    (by decide) (by decide) (by decide)

/-- C5 (amended): on every reachable state, `gameStatus = finished` implies every card is
matched, and a finished state is fixed by `handleCardFlip` and keeps its status through
both mismatch resets; however `toggleGamePause` maps a finished state to `paused`, so the
pause toggle does leave the finished status (see the counterexample), and consequently an
all-matched reachable state need not carry the `finished` status. -/
theorem finished_terminal (s : GameState) (h : Reaches s)
    (hfin : s.gameStatus = .finished) :
    (∀ c ∈ s.cards, c.isMatched = true) ∧
    (∀ t i, handleCardFlip t s i = s) ∧
    (resetFlippedCardsWithDelay s).gameStatus = .finished ∧
    (hookMismatchReset s).gameStatus = .finished ∧
    (∀ t, (toggleGamePause t s).gameStatus = .paused) := by
  refine ⟨reaches_finished_all_matched h hfin, ?_, hfin, hfin, ?_⟩
  · intro t i
    exact handleCardFlip_no_op t s i (by rw [hfin]; exact fun hh => GameStatus.noConfusion hh)
  · intro t
    unfold toggleGamePause
    dsimp only
    rw [hfin]
    rfl

/-- Witness for C5 at the concrete finished trace state. -/
theorem finished_terminal_witness :
    (∀ c ∈ traceFinished.cards, c.isMatched = true) ∧
    (∀ t i, handleCardFlip t traceFinished i = traceFinished) ∧
    (resetFlippedCardsWithDelay traceFinished).gameStatus = .finished ∧
    (hookMismatchReset traceFinished).gameStatus = .finished ∧
    (∀ t, (toggleGamePause t traceFinished).gameStatus = .paused) :=
  finished_terminal traceFinished
    (reaches_foldl (List.range 16) traceStart
      (Reaches.init .ai .color .b4x4 "P1" none (some .easy) none traceRnd 0))
    (by decide)

/-- Counterexample for C5 as stated: `traceFinished` is reachable and finished, yet the
pause toggle produces a reachable all-matched state whose status is `paused`, not
`finished` — the pause toggle leaves the finished status, and the ⇐ direction of the
claimed equivalence fails on the resulting reachable state. -/
theorem finished_pause_cex :
    Reaches traceFinished ∧ traceFinished.gameStatus = .finished ∧
    (toggleGamePause 0 traceFinished).gameStatus = .paused ∧
    Reaches (toggleGamePause 0 traceFinished) ∧
    (∀ c ∈ (toggleGamePause 0 traceFinished).cards, c.isMatched = true) ∧
    (toggleGamePause 0 traceFinished).gameStatus ≠ .finished := by
  have hr : Reaches traceFinished :=
    reaches_foldl (List.range 16) traceStart
      (Reaches.init .ai .color .b4x4 "P1" none (some .easy) none traceRnd 0)
  exact ⟨hr, by decide, by decide, hr.pause 0, by decide, by decide⟩

/-- C6: every state reachable from `initializeGame` satisfies the score invariant: the
player scores sum to `matchedPairs.length`, and twice that sum is the number of matched
cards. -/
theorem score_invariant (s : GameState) (h : Reaches s) :
    sumScores s = s.matchedPairs.length ∧
    2 * sumScores s = (s.cards.filter (·.isMatched)).length := by
  have hinv := inv_of_reaches h
  refine ⟨hinv.score_eq, ?_⟩
  rw [← List.countP_eq_length_filter, hinv.score_eq]
  exact hinv.matched_eq

/-- Witness for C6 at a freshly initialized game. -/
theorem score_invariant_witness :
    sumScores traceStart = traceStart.matchedPairs.length ∧
    2 * sumScores traceStart = (traceStart.cards.filter (·.isMatched)).length :=
  score_invariant traceStart
    (Reaches.init .ai .color .b4x4 "P1" none (some .easy) none traceRnd 0)

/-- C7: a card that is matched (and face up) before a transition is still matched and
face up after it, for every embedded transition: `handleCardFlip`, the part_002 mismatch
reset, the hook mismatch-reset mapping, and the pause toggle. -/
theorem matched_immutable (s : GameState) (k : Nat) (c : Card)
    (hk : s.cards.get? k = some c) (hm : c.isMatched = true) (hf : c.isFlipped = true) :
    (∀ t i, ∃ c2, (handleCardFlip t s i).cards.get? k = some c2 ∧
      c2.isMatched = true ∧ c2.isFlipped = true) ∧
    (∃ c2, (resetFlippedCardsWithDelay s).cards.get? k = some c2 ∧
      c2.isMatched = true ∧ c2.isFlipped = true) ∧
    (∃ c2, (hookMismatchReset s).cards.get? k = some c2 ∧
      c2.isMatched = true ∧ c2.isFlipped = true) ∧
    (∀ t, ∃ c2, (toggleGamePause t s).cards.get? k = some c2 ∧
      c2.isMatched = true ∧ c2.isFlipped = true) := by
  refine ⟨?_, ?_, ?_, ?_⟩
  · intro t i
    unfold handleCardFlip
    by_cases hcf : canFlipCard s i = true
    · rw [if_neg (by simp [hcf])]
      obtain ⟨ci, hci, hciid, hst, hcif, hcim, hlen⟩ := (canFlipCard_spec s i).mp hcf
      rw [hci]
      dsimp only
      rw [if_neg (by simpa using hciid)]
      have hki : k ≠ i := by
        intro he
        rw [he, hci] at hk
        cases hk
        rw [hcim] at hm
        exact Bool.noConfusion hm
      have hkmid : (s.cards.set i { ci with isFlipped := true }).get? k = some c := by
        rw [get?_set_ne _ _ _ _ (fun he => hki he.symm)]
        exact hk
      by_cases h2 : ((s.flippedCards ++ [{ ci with isFlipped := true }]).length == 2) = true
      · rw [if_pos h2]
        exact processCardPair_preserves_matched t _ k c hkmid hm hf
      · rw [if_neg h2]
        exact ⟨c, hkmid, hm, hf⟩
    · rw [if_pos (by simp [hcf])]
      exact ⟨c, hk, hm, hf⟩
  · unfold resetFlippedCardsWithDelay resetFlippedCards
    dsimp only
    rw [get?_map, hk]
    refine ⟨c, ?_, hm, hf⟩
    simp [hm]
  · unfold hookMismatchReset
    dsimp only
    rw [get?_map, hk]
    refine ⟨c, ?_, hm, hf⟩
    by_cases h0 : (c.id == "") = true <;> simp [h0, hm]
  · intro t
    exact ⟨c, hk, hm, hf⟩

/-- Witness for C7 at a concrete state holding a matched card. -/
theorem matched_immutable_witness :
    (∀ t i, ∃ c2, (handleCardFlip t stateWithMatched i).cards.get? 0 = some c2 ∧
      c2.isMatched = true ∧ c2.isFlipped = true) ∧
    (∃ c2, (resetFlippedCardsWithDelay stateWithMatched).cards.get? 0 = some c2 ∧
      c2.isMatched = true ∧ c2.isFlipped = true) ∧
    (∃ c2, (hookMismatchReset stateWithMatched).cards.get? 0 = some c2 ∧
      c2.isMatched = true ∧ c2.isFlipped = true) ∧
    (∀ t, ∃ c2, (toggleGamePause t stateWithMatched).cards.get? 0 = some c2 ∧
      c2.isMatched = true ∧ c2.isFlipped = true) :=
  matched_immutable stateWithMatched 0 cardMatched (by decide) (by decide) (by decide)

/-- C8: for every supported board size and match type, `generateGameCards` returns a deck
with exactly the (even) cell count of the board of cards, and each base card generated by the
pair loop matches its synthesized partner under the match criterion — same color with a
different suit for `color`, same rank with a different suit for `rank`, same suit with a
different rank for `suit` — for every randomness oracle. -/
theorem deck_validity :
    (∀ (bs : BoardSize) (mt : MatchType) (r : Rnd),
      (generateGameCards bs mt r).1.length = (getBoardDimensions bs).2.2 ∧
      (generateGameCards bs mt r).1.length % 2 = 0) ∧
    (∀ (mt : MatchType) (bs : BoardSize) (r : Rnd) (k : Nat),
      k < (getBoardDimensions bs).2.2 / 2 →
      ∃ c1 c2,
        (genPairsAux mt ((getBoardDimensions bs).2.2 / 2) 0 r).1.get? (2 * k) = some c1 ∧
        (genPairsAux mt ((getBoardDimensions bs).2.2 / 2) 0 r).1.get? (2 * k + 1)
          = some c2 ∧
        cardsMatch c1 c2 mt = true ∧
        (mt = .color → c1.color = c2.color ∧ c1.suit ≠ c2.suit) ∧
        (mt = .rank → c1.rank = c2.rank ∧ c1.suit ≠ c2.suit) ∧
        (mt = .suit → c1.suit = c2.suit ∧ c1.rank ≠ c2.rank)) := by
  constructor
  · intro bs mt r
    refine ⟨generateGameCards_length bs mt r, ?_⟩
    rw [generateGameCards_length bs mt r]
    cases bs <;> decide
  · intro mt bs r k hk
    exact genPairsAux_pair mt ((getBoardDimensions bs).2.2 / 2) 0 r k hk

/-- Witness for C8 on the 4×4 color board (pair 0). -/
theorem deck_validity_witness :
    ((generateGameCards .b4x4 .color emptyRnd).1.length =
        (getBoardDimensions .b4x4).2.2 ∧
      (generateGameCards .b4x4 .color emptyRnd).1.length % 2 = 0) ∧
    (∃ c1 c2,
      (genPairsAux .color ((getBoardDimensions .b4x4).2.2 / 2) 0 emptyRnd).1.get? (2 * 0)
        = some c1 ∧
      (genPairsAux .color ((getBoardDimensions .b4x4).2.2 / 2) 0 emptyRnd).1.get?
          (2 * 0 + 1) = some c2 ∧
      cardsMatch c1 c2 .color = true ∧
      (MatchType.color = .color → c1.color = c2.color ∧ c1.suit ≠ c2.suit) ∧
      (MatchType.color = .rank → c1.rank = c2.rank ∧ c1.suit ≠ c2.suit) ∧
      (MatchType.color = .suit → c1.suit = c2.suit ∧ c1.rank ≠ c2.rank)) :=
  ⟨deck_validity.1 .b4x4 .color emptyRnd,
   deck_validity.2 .color .b4x4 emptyRnd 0 (by decide)⟩

/-- C9 (amended): when `settings.hintsEnabled` is true, `getHint` returns the board
positions of two available matching cards whenever some pair of available cards matches,
and returns `null` only when no such pair exists.  (`getHint` is a pure function of the
state; it cannot modify it.)  When hints are disabled, `getHint` returns `null`
unconditionally — see the counterexample. -/
theorem getHint_found_or_none (s : GameState) (hEn : s.settings.hintsEnabled = true) :
    ((∃ i j ci cj, i < j ∧
        (s.cards.filter (fun c => !c.isMatched && !c.isFlipped)).get? i = some ci ∧
        (s.cards.filter (fun c => !c.isMatched && !c.isFlipped)).get? j = some cj ∧
        cardsMatch ci cj s.matchType = true) →
      ∃ ci cj, ci ∈ s.cards ∧ cj ∈ s.cards ∧
        ci.isMatched = false ∧ ci.isFlipped = false ∧
        cj.isMatched = false ∧ cj.isFlipped = false ∧
        cardsMatch ci cj s.matchType = true ∧
        getHint s = some (ci.position, cj.position)) ∧
    (getHint s = none →
      ∀ i j ci cj, i < j →
        (s.cards.filter (fun c => !c.isMatched && !c.isFlipped)).get? i = some ci →
        (s.cards.filter (fun c => !c.isMatched && !c.isFlipped)).get? j = some cj →
        cardsMatch ci cj s.matchType = false) := by
  have hunfold : getHint s =
      findHintPair s.matchType (s.cards.filter (fun c => !c.isMatched && !c.isFlipped)) := by
    unfold getHint
    rw [if_neg (by simp [hEn])]
  constructor
  · rintro ⟨i, j, ci, cj, hij, hi, hj, hm⟩
    cases hres : findHintPair s.matchType
        (s.cards.filter (fun c => !c.isMatched && !c.isFlipped)) with
    | none =>
      have := findHintPair_none_spec s.matchType _ hres i j ci cj hij hi hj
      rw [hm] at this
      exact Bool.noConfusion this
    | some pq =>
      obtain ⟨p, q⟩ := pq
      obtain ⟨i2, j2, ci2, cj2, hij2, hi2, hj2, hm2, hp2, hq2⟩ :=
        findHintPair_some_spec s.matchType _ p q hres
      have hmem1 := List.mem_filter.mp (List.get?_mem hi2)
      have hmem2 := List.mem_filter.mp (List.get?_mem hj2)
      simp only [Bool.and_eq_true, Bool.not_eq_true'] at hmem1 hmem2
      refine ⟨ci2, cj2, hmem1.1, hmem2.1, hmem1.2.1, hmem1.2.2, hmem2.2.1, hmem2.2.2,
        hm2, ?_⟩
      rw [hunfold, hres, hp2, hq2]
  · intro hnone
    rw [hunfold] at hnone
    exact findHintPair_none_spec s.matchType _ hnone

/-- Witness for C9 at a concrete hints-enabled state with a matching available pair. -/
theorem getHint_found_or_none_witness :
    ((∃ i j ci cj, i < j ∧
        (stateHintsOn.cards.filter (fun c => !c.isMatched && !c.isFlipped)).get? i
          = some ci ∧
        (stateHintsOn.cards.filter (fun c => !c.isMatched && !c.isFlipped)).get? j
          = some cj ∧
        cardsMatch ci cj stateHintsOn.matchType = true) →
      ∃ ci cj, ci ∈ stateHintsOn.cards ∧ cj ∈ stateHintsOn.cards ∧
        ci.isMatched = false ∧ ci.isFlipped = false ∧
        cj.isMatched = false ∧ cj.isFlipped = false ∧
        cardsMatch ci cj stateHintsOn.matchType = true ∧
        getHint stateHintsOn = some (ci.position, cj.position)) ∧
    (getHint stateHintsOn = none →
      ∀ i j ci cj, i < j →
        (stateHintsOn.cards.filter (fun c => !c.isMatched && !c.isFlipped)).get? i
          = some ci →
        (stateHintsOn.cards.filter (fun c => !c.isMatched && !c.isFlipped)).get? j
          = some cj →
        cardsMatch ci cj stateHintsOn.matchType = false) :=
  getHint_found_or_none stateHintsOn (by decide)

/-- Counterexample for C9 as stated: with hints disabled, `getHint` returns `null` even
though an available matching pair exists on the board. -/
theorem getHint_disabled_cex :
    getHint stateHintsOff = none ∧
    (stateHintsOff.cards.filter (fun c => !c.isMatched && !c.isFlipped)).get? 0
      = some cardAvailRed ∧
    (stateHintsOff.cards.filter (fun c => !c.isMatched && !c.isFlipped)).get? 1
      = some cardAvailRedB ∧
    cardsMatch cardAvailRed cardAvailRedB stateHintsOff.matchType = true := by
  decide

/-- C10 (amended): `makeMove` is total — it never signals "no move."  With fewer than 2
available cards on a board of at least 2 cards it returns the `forceEmergencyMove`
fallback: a pair of distinct in-bounds indices that need not refer to available cards
(see the counterexample); the caller-side scheduler is what refuses to flip in that
situation. -/
theorem makeMove_insufficient_fallback (memory : AIMemory) (cards : List Card)
    (mt : MatchType) (moves : List Move) (r : Rnd)
    (hlen : 2 ≤ cards.length)
    (hlt : cards.countP (fun c => !c.isFlipped && !c.isMatched) < 2) :
    (makeMove memory cards mt moves r).1 = forceEmergencyMove cards ∧
    (makeMove memory cards mt moves r).1.1 ≠ (makeMove memory cards mt moves r).1.2 ∧
    (makeMove memory cards mt moves r).1.1 < cards.length ∧
    (makeMove memory cards mt moves r).1.2 < cards.length :=
  makeMove_emergency_aux memory cards mt moves r hlen hlt

/-- Witness for C10 on a fully matched two-card board. -/
theorem makeMove_insufficient_fallback_witness :
    (makeMove emptyMemory cardsAllMatched .color [] emptyRnd).1 =
      forceEmergencyMove cardsAllMatched ∧
    (makeMove emptyMemory cardsAllMatched .color [] emptyRnd).1.1 ≠
      (makeMove emptyMemory cardsAllMatched .color [] emptyRnd).1.2 ∧
    (makeMove emptyMemory cardsAllMatched .color [] emptyRnd).1.1 <
      cardsAllMatched.length ∧
    (makeMove emptyMemory cardsAllMatched .color [] emptyRnd).1.2 <
      cardsAllMatched.length :=
  makeMove_insufficient_fallback emptyMemory cardsAllMatched .color [] emptyRnd
    (by decide) (by decide)

/-- Counterexample for C10 as stated: on a board with 0 available cards, `makeMove` does
not produce a "no move" signal — it returns the index pair `(0, 1)`, both pointing at
matched (unavailable) cards. -/
theorem makeMove_no_signal_cex :
    cardsAllMatched.countP (fun c => !c.isFlipped && !c.isMatched) = 0 ∧
    (makeMove emptyMemory cardsAllMatched .color [] emptyRnd).1 = (0, 1) ∧
    (cardsAllMatched.get? 0).map (·.isMatched) = some true ∧
    (cardsAllMatched.get? 1).map (·.isMatched) = some true := by
  decide
